import Mathlib

set_option maxRecDepth 8000

/-!
Verification development for the `dbutton` paginated-button widget
(`src/dbutton/utils.py` and `src/dbutton/button.py`).

The embedding models:
 * records and filter sets (`apply_filters` in `utils.py`),
 * Python list slicing and `paginate` (`utils.py`),
 * the default callback-token codec (Python `json.dumps` / `json.loads`,
   installed by `dbutton.__init__`),
 * the controller state machine (`dbutton.__init__`, `_refresh`,
   `set_filters`, `next_page`, `prev_page`, `build_message`,
   `_handle_callback`).

Record field values are modelled by their `str()` image, since the code
only ever compares or renders `str(value)`.  Uncaught Python exceptions
are modelled by `Except` error results.

Declared modelling boundaries (none of them load-bearing for a claim):
CPython resource limits are outside the model — the recursion limit on
deeply nested JSON documents and the integer string-conversion length
limit; a deserialized float is kept as its literal text, not an IEEE
value (see `PyVal.vFloat` and `PyExc.floatCompare`); an unpaired
surrogate `\uXXXX` escape decodes to a code unit that Lean scalar
values cannot hold and is stored as U+FFFD (see `replacementChar`).
-/

/-- A record: a mapping from field names to (stringified) values.  Models
the Python `dict` rows of the data source. -/
abbrev Record := List (String × String)

/-- A filter set: a mapping from field names to (stringified) scalar
values, as passed to `apply_filters`. -/
abbrev FilterSet := List (String × String)

/-- Field access `str(item.get(key, ""))` from `utils.apply_filters` and
`dbutton.build_message`: a missing field reads as the empty string. -/
def getField (r : Record) (k : String) : String :=
  (List.lookup k r).getD ""

/-- Models Python `str.lower()` (ASCII case folding, as used by the
equality filters). -/
def strLower (s : String) : String :=
  ⟨s.data.map Char.toLower⟩

/-- The inner loop of `apply_filters`: `for key, val in filters.items()`
with an early `break` on the first mismatching filter entry. -/
def filterMatch : FilterSet → Record → Bool
  | [], _ => true
  | (key, val) :: rest, item =>
    if strLower (getField item key) ≠ strLower val then false
    else filterMatch rest item

/-- The outer loop of `apply_filters`: keep the matching items in order. -/
def applyFiltersLoop : List Record → FilterSet → List Record
  | [], _ => []
  | item :: rest, fs =>
    if filterMatch fs item then item :: applyFiltersLoop rest fs
    else applyFiltersLoop rest fs

/-- `utils.apply_filters(data, filters)`: `if not filters: return list(data)`,
otherwise the records matching every filter entry, in order. -/
def apply_filters (data : List Record) (filters : FilterSet) : List Record :=
  if filters = [] then data else applyFiltersLoop data filters

/-- Resolution of one Python slice endpoint for a sequence of length `n`:
negative indices count from the end, and the result is clamped into
`[0, n]`. -/
def pyResolve (n : Int) (i : Int) : Nat :=
  if i < 0 then (n + i).toNat else (min i n).toNat

/-- Python list slicing `l[a:b]` (with the default step 1). -/
def pySlice {α : Type} (l : List α) (a b : Int) : List α :=
  (l.take (pyResolve l.length b)).drop (pyResolve l.length a)

/-- `utils.paginate(data, page, page_size)`: total pages via Python floor
division (`Int.fdiv`), and the Python slice `data[start:end]`. -/
def paginate (data : List Record) (page : Int) (page_size : Int) :
    List Record × Int :=
  let total : Int := data.length
  let total_pages := max 1 ((total + page_size - 1).fdiv page_size)
  let start := (page - 1) * page_size
  (pySlice data start (start + page_size), total_pages)

/-- Ceiling division on naturals, `(a + b - 1) / b`; used to state the
`total_pages = max(1, ceil(count / page_size))` claims. -/
def ceilDiv (a b : Nat) : Nat := (a + b - 1) / b

theorem ceilDiv_eq_div_add_ite (a b : Nat) (hb : 0 < b) :
    ceilDiv a b = a / b + (if a % b = 0 then 0 else 1) := by
  have h := Nat.div_add_mod a b
  have hr := Nat.mod_lt a hb
  by_cases hmod : a % b = 0
  · have h1 : a + b - 1 = b * (a / b) + (b - 1) := by omega
    have h2 : (b - 1) / b = 0 := Nat.div_eq_of_lt (by omega)
    rw [ceilDiv, h1, Nat.mul_add_div hb, h2]
    simp [hmod]
  · have hmul : b * (a / b + 1) = b * (a / b) + b := by ring
    have h1 : a + b - 1 = b * (a / b + 1) + (a % b - 1) := by omega
    have h2 : (a % b - 1) / b = 0 := Nat.div_eq_of_lt (by omega)
    rw [ceilDiv, h1, Nat.mul_add_div hb, h2]
    simp [hmod]

/-- Decimal digit characters, used to model Python's `str(int)` and the
numerals written by `json.dumps`. -/
def digitChar : Nat → Char
  | 0 => '0'
  | 1 => '1'
  | 2 => '2'
  | 3 => '3'
  | 4 => '4'
  | 5 => '5'
  | 6 => '6'
  | 7 => '7'
  | 8 => '8'
  | _ => '9'

/-- Fueled digit loop for decimal printing: peels off the least
significant digit first, prepending onto the accumulator. -/
def natReprAux : Nat → Nat → List Char → List Char
  | 0, _, acc => acc
  | fuel + 1, n, acc =>
    if n < 10 then digitChar n :: acc
    else natReprAux fuel (n / 10) (digitChar (n % 10) :: acc)

/-- Decimal representation of a natural number (big-endian), modelling
Python `str(n)` for `n ≥ 0`. -/
def natRepr (n : Nat) : List Char := natReprAux (n + 1) n []

/-- Decimal representation of an integer, modelling Python `str(n)` and
the integer numerals produced by `json.dumps`. -/
def intRepr (n : Int) : List Char :=
  if n < 0 then '-' :: natRepr n.natAbs else natRepr n.toNat

/-- Python `str(n)` for a natural number, as a `String`. -/
def natStr (n : Nat) : String := ⟨natRepr n⟩

/-- Python `str(n)` for an integer, as a `String`. -/
def intStr (n : Int) : String := ⟨intRepr n⟩

example : natStr 125 = "125" := rfl
example : intStr (-7) = "-7" := rfl
example : apply_filters [[("a", "X")], [("a", "y")]] [("a", "x")] = [[("a", "X")]] := rfl
example : paginate [[("a", "1")], [("a", "2")], [("a", "3")]] 2 2 = ([[("a", "3")]], 2) := rfl
example : paginate [[("a", "1")], [("a", "2")]] (-1) 1 = ([[("a", "1")]], 2) := rfl

/-- Python values produced by the default callback-data deserializer
(`json.loads`).  A float literal deserializes successfully like any
other value, but its IEEE value is kept opaque: `vFloat special lit`
records the literal's text, with `special = true` for the non-finite
constants `NaN` / `Infinity` / `-Infinity` (whose comparisons with the
integer page bounds are all determined).  No widget token carries
floats and no claim interprets one. -/
inductive PyVal where
  | vNull
  | vBool (b : Bool)
  | vInt (n : Int)
  | vStr (s : String)
  | vFloat (special : Bool) (lit : List Char)
  | vList (xs : List PyVal)
  | vDict (entries : List (String × PyVal))

/-- One value of a callback token: the widget only ever serializes flat
dictionaries of strings and integers. -/
inductive TokVal where
  | s (v : String)
  | i (n : Int)

/-- A callback token before serialization: a flat string-keyed dict. -/
abbrev Token := List (String × TokVal)

/-- The `PyVal` a token value deserializes back to. -/
def TokVal.toPyVal : TokVal → PyVal
  | .s v => .vStr v
  | .i n => .vInt n

/-- Serialization of one token value, as written by `json.dumps`
(no escaping is needed: the widget's strings are plain ASCII words). -/
def dumpTokVal : TokVal → List Char
  | .s v => '"' :: v.data ++ ['"']
  | .i n => intRepr n

/-- Comma-space separated concatenation, as in `json.dumps`'s default
`", "` item separator. -/
def joinComma : List (List Char) → List Char
  | [] => []
  | [x] => x
  | x :: y :: rest => x ++ ',' :: ' ' :: joinComma (y :: rest)

/-- Serialization of one `"key": value` member, with `json.dumps`'s
default `": "` key separator. -/
def dumpEntry (e : String × TokVal) : List Char :=
  '"' :: e.1.data ++ '"' :: ':' :: ' ' :: dumpTokVal e.2

/-- Models Python `json.dumps` (default separators) on the flat
string/int dictionaries the widget serializes, at the character level. -/
def json_dumps_chars (o : Token) : List Char :=
  '{' :: joinComma (o.map dumpEntry) ++ ['}']

/-- Models Python `json.dumps` on callback tokens. -/
def json_dumps (o : Token) : String := ⟨json_dumps_chars o⟩

example : json_dumps [("action", TokVal.s "next")] = "\x7b\"action\": \"next\"\x7d" := rfl
example : json_dumps [("action", TokVal.s "detail"), ("index", TokVal.i 2), ("page", TokVal.i 1)]
    = "\x7b\"action\": \"detail\", \"index\": 2, \"page\": 1\x7d" := rfl

/-- JSON insignificant whitespace. -/
def isJsonWs (c : Char) : Bool :=
  c = ' ' || c = '\t' || c = '\n' || c = '\r'

/-- Skip leading JSON whitespace. -/
def skipWs : List Char → List Char
  | [] => []
  | c :: cs => if isJsonWs c then skipWs cs else c :: cs

/-- Stand-in for a code unit outside Lean's scalar values: Python keeps
the lone surrogate of an unpaired `\uXXXX` escape in the resulting
`str`; a `Char` cannot hold it, so the model stores U+FFFD.  Such a
string never equals the plain-ASCII action names and keys the widget
compares against, so no claim depends on its content. -/
def replacementChar : Char := Char.ofNat 0xFFFD

/-- Value of one hexadecimal digit of a `\uXXXX` escape. -/
def hexVal (c : Char) : Option Nat :=
  if '0' ≤ c ∧ c ≤ '9' then some (c.toNat - 48)
  else if 'a' ≤ c ∧ c ≤ 'f' then some (c.toNat - 87)
  else if 'A' ≤ c ∧ c ≤ 'F' then some (c.toNat - 55)
  else none

/-- The character denoted by a single-character escape, as accepted by
`json.loads` (`\"`, `\\`, `\/`, `\b`, `\f`, `\n`, `\r`, `\t`); any
other escape character is a decode error. -/
def escChar (e : Char) : Option Char :=
  if e = '"' then some '"'
  else if e = '\\' then some '\\'
  else if e = '/' then some '/'
  else if e = 'b' then some (Char.ofNat 8)
  else if e = 'f' then some (Char.ofNat 12)
  else if e = 'n' then some '\n'
  else if e = 'r' then some '\r'
  else if e = 't' then some '\t'
  else none

/-- One decoded unit of a JSON string body: a literal (or
single-character-escaped) character, or the code unit of a `\uXXXX`
escape, kept apart because only adjacent `\uXXXX` escapes form
surrogate pairs. -/
inductive SChunk where
  | lit (c : Char)
  | esc (u : Nat)

/-- Scanner position inside a JSON string literal: after a `\`, inside
the four hex digits of a `\uXXXX` escape (most significant collected
digit values first), or at an ordinary character. -/
inductive ScanState where
  | normal
  | afterBackslash
  | inU (ds : List Nat)

/-- Scan of a JSON string literal body up to the closing quote, one
source character per step, as read by `json.loads` in its default
strict mode: raw control characters (below U+0020) are rejected,
single-character escapes are decoded, and each `\uXXXX` escape yields
its code unit. -/
def scanSB : ScanState → List Char → Option (List SChunk × List Char)
  | .normal, [] => none
  | .normal, c :: cs =>
    if c = '"' then some ([], cs)
    else if c = '\\' then scanSB .afterBackslash cs
    else if c.toNat < 32 then none
    else (scanSB .normal cs).map fun r => (.lit c :: r.1, r.2)
  | .afterBackslash, [] => none
  | .afterBackslash, e :: cs =>
    if e = 'u' then scanSB (.inU []) cs
    else
      match escChar e with
      | none => none
      | some d => (scanSB .normal cs).map fun r => (.lit d :: r.1, r.2)
  | .inU _, [] => none
  | .inU ds, h :: cs =>
    match hexVal h with
    | none => none
    | some v =>
      if ds.length = 3 then
        (scanSB .normal cs).map fun r =>
          (.esc ((ds ++ [v]).foldl (fun a d => 16 * a + d) 0) :: r.1, r.2)
      else scanSB (.inU (ds ++ [v])) cs

/-- The scanned units of a string body, starting outside any escape. -/
def scanStringBody (cs : List Char) : Option (List SChunk × List Char) :=
  scanSB .normal cs

/-- Merge the scanned units of a string body the way Python's scanner
does: a `\uXXXX` high-surrogate code unit pairs with an immediately
following `\uXXXX` low surrogate into one code point; any unpaired
surrogate stays a lone code unit in Python's `str` and is stored as
`replacementChar` here.  `pending` carries a high surrogate still
waiting for its partner. -/
def pairUnits : Option Nat → List SChunk → List Char
  | none, [] => []
  | some _, [] => [replacementChar]
  | none, .lit c :: rest => c :: pairUnits none rest
  | some _, .lit c :: rest => replacementChar :: c :: pairUnits none rest
  | none, .esc u :: rest =>
    if 0xD800 ≤ u ∧ u ≤ 0xDBFF then pairUnits (some u) rest
    else if 0xDC00 ≤ u ∧ u ≤ 0xDFFF then replacementChar :: pairUnits none rest
    else Char.ofNat u :: pairUnits none rest
  | some u, .esc w :: rest =>
    if 0xDC00 ≤ w ∧ w ≤ 0xDFFF then
      Char.ofNat (0x10000 + (u - 0xD800) * 0x400 + (w - 0xDC00)) :: pairUnits none rest
    else if 0xD800 ≤ w ∧ w ≤ 0xDBFF then
      replacementChar :: pairUnits (some w) rest
    else
      replacementChar :: Char.ofNat w :: pairUnits none rest

/-- Body of a JSON string literal, up to the closing quote, as decoded
by `json.loads`: the scanned units with surrogate escapes paired. -/
def parseStringBody (cs : List Char) : Option (List Char × List Char) :=
  (scanStringBody cs).map fun r => (pairUnits none r.1, r.2)

/-- Longest prefix of decimal digits. -/
def takeDigits : List Char → List Char × List Char
  | [] => ([], [])
  | c :: cs =>
    if c.isDigit then
      let r := takeDigits cs
      (c :: r.1, r.2)
    else ([], c :: cs)

/-- Numeric value of a digit character. -/
def digitVal (c : Char) : Nat := c.toNat - 48

/-- Value of a big-endian digit string. -/
def natOfChars (ds : List Char) : Nat :=
  ds.foldl (fun acc c => 10 * acc + digitVal c) 0

/-- The integer part of a JSON numeral, `0 | [1-9][0-9]*`: a leading
zero is the whole part (so `042` parses as `0` with `42` left over,
exactly as Python's number regex matches it — the leftover then fails
wherever it occurs). -/
def parseIntPart : List Char → Option (List Char × List Char)
  | [] => none
  | c :: cs =>
    if c = '0' then some (['0'], cs)
    else if c.isDigit then
      some ((takeDigits (c :: cs)).1, (takeDigits (c :: cs)).2)
    else none

/-- The optional fraction part `(. [0-9]+)?` of a JSON numeral.  A `.`
not followed by a digit fails the numeral; Python's regex instead ends
the match before the `.`, but a leftover `.` is an error in every JSON
context, so the two readings reject the same inputs. -/
def parseFrac : List Char → Option (List Char × List Char)
  | [] => some ([], [])
  | c :: cs =>
    if c = '.' then
      match takeDigits cs with
      | ([], _) => none
      | (ds, rest) => some ('.' :: ds, rest)
    else some ([], c :: cs)

/-- The optional exponent part `([eE][+-]? [0-9]+)?` of a JSON numeral;
like `parseFrac`, a dangling `e` rejects the same inputs as Python's
shorter regex match followed by the leftover `e` failing. -/
def parseExp : List Char → Option (List Char × List Char)
  | [] => some ([], [])
  | c :: cs =>
    if c = 'e' || c = 'E' then
      match cs with
      | [] => none
      | d :: cs2 =>
        if d = '+' || d = '-' then
          match takeDigits cs2 with
          | ([], _) => none
          | (ds, rest) => some (c :: d :: ds, rest)
        else
          match takeDigits (d :: cs2) with
          | ([], _) => none
          | (ds, rest) => some (c :: ds, rest)
    else some ([], c :: cs)

/-- An unsigned JSON numeral: integer part, optional fraction, optional
exponent, returned as the three character groups. -/
def parseNumBody (cs : List Char) :
    Option ((List Char × List Char × List Char) × List Char) :=
  match parseIntPart cs with
  | none => none
  | some (ids, cs2) =>
    match parseFrac cs2 with
    | none => none
    | some (fds, cs3) =>
      match parseExp cs3 with
      | none => none
      | some (eds, cs4) => some ((ids, fds, eds), cs4)

/-- Assemble a parsed JSON numeral the way `json.loads` does: with no
fraction and no exponent it is a Python `int`, otherwise a `float`
(kept as its literal text). -/
def mkNumVal (neg : Bool) : List Char × List Char × List Char → PyVal
  | (ids, fds, eds) =>
    if fds.isEmpty && eds.isEmpty then
      .vInt (if neg then -(natOfChars ids : Int) else (natOfChars ids : Int))
    else
      .vFloat false ((if neg then ['-'] else []) ++ ids ++ fds ++ eds)

/-- A JSON numeral at a value position starting with `-` or a digit:
`-?(0|[1-9][0-9]*)` with optional fraction and exponent, plus the
constant `-Infinity`, which `json.loads` accepts after its number
regex fails (`NaN` and `Infinity` are reached from the literal
dispatch in `parseValue`). -/
def parseNumber (cs : List Char) : Option (PyVal × List Char) :=
  match cs with
  | [] => none
  | c :: cs1 =>
    if c = '-' then
      match cs1 with
      | [] => none
      | c1 :: cs2 =>
        if c1 = 'I' then
          match cs2 with
          | 'n' :: 'f' :: 'i' :: 'n' :: 'i' :: 't' :: 'y' :: rest =>
            some (.vFloat true "-Infinity".data, rest)
          | _ => none
        else
          (parseNumBody (c1 :: cs2)).map fun r => (mkNumVal true r.1, r.2)
    else
      (parseNumBody (c :: cs1)).map fun r => (mkNumVal false r.1, r.2)

/-- One `d[k] = v` step of Python `dict` construction: an existing key
is updated in place, a new key is appended. -/
def dictInsert (l : List (String × PyVal)) (k : String) (v : PyVal) :
    List (String × PyVal) :=
  if l.any (fun e => e.1 == k) then
    l.map fun e => if e.1 == k then (e.1, v) else e
  else l ++ [(k, v)]

/-- The Python `dict` built from the parsed members of a JSON object:
a later duplicate key overwrites the earlier value (`json.loads` keeps
the last one), at the key's first-insertion position. -/
def pyDictOf (l : List (String × PyVal)) : List (String × PyVal) :=
  l.foldl (fun acc e => dictInsert acc e.1 e.2) []

/-- The keyword literals `json.loads` accepts at a value position that
start with a letter: `true`, `false`, `null`, and the non-finite float
constants `NaN` and `Infinity`. -/
def parseLiteral : List Char → Option (PyVal × List Char)
  | 't' :: 'r' :: 'u' :: 'e' :: rest2 => some (.vBool true, rest2)
  | 'f' :: 'a' :: 'l' :: 's' :: 'e' :: rest2 => some (.vBool false, rest2)
  | 'n' :: 'u' :: 'l' :: 'l' :: rest2 => some (.vNull, rest2)
  | 'N' :: 'a' :: 'N' :: rest2 => some (.vFloat true "NaN".data, rest2)
  | 'I' :: 'n' :: 'f' :: 'i' :: 'n' :: 'i' :: 't' :: 'y' :: rest2 =>
    some (.vFloat true "Infinity".data, rest2)
  | _ => none

mutual

/-- Recursive-descent JSON value grammar, modelling `json.loads`.  The
fuel argument only bounds nesting; `json_loads` supplies enough for any
input. -/
def parseValue : Nat → List Char → Option (PyVal × List Char)
  | 0, _ => none
  | fuel + 1, cs =>
    match skipWs cs with
    | [] => none
    | c :: rest =>
      if c = '"' then
        (parseStringBody rest).map fun r => (.vStr ⟨r.1⟩, r.2)
      else if c = '{' then
        match skipWs rest with
        | '}' :: rest2 => some (.vDict [], rest2)
        | rest2 => (parseMembers fuel rest2).map fun r => (.vDict (pyDictOf r.1), r.2)
      else if c = '[' then
        match skipWs rest with
        | ']' :: rest2 => some (.vList [], rest2)
        | rest2 => (parseItems fuel rest2).map fun r => (.vList r.1, r.2)
      else if c = '-' || c.isDigit then
        parseNumber (c :: rest)
      else
        parseLiteral (c :: rest)

/-- One or more `"key": value` members followed by `}`. -/
def parseMembers : Nat → List Char → Option (List (String × PyVal) × List Char)
  | 0, _ => none
  | fuel + 1, cs =>
    match skipWs cs with
    | '"' :: rest =>
      match parseStringBody rest with
      | none => none
      | some (key, rest2) =>
        match skipWs rest2 with
        | ':' :: rest3 =>
          match parseValue fuel rest3 with
          | none => none
          | some (v, rest4) =>
            match skipWs rest4 with
            | ',' :: rest5 =>
              (parseMembers fuel rest5).map fun r => ((⟨key⟩, v) :: r.1, r.2)
            | '}' :: rest5 => some ([(⟨key⟩, v)], rest5)
            | _ => none
        | _ => none
    | _ => none

/-- One or more array items followed by `]`. -/
def parseItems : Nat → List Char → Option (List PyVal × List Char)
  | 0, _ => none
  | fuel + 1, cs =>
    match parseValue fuel cs with
    | none => none
    | some (v, rest) =>
      match skipWs rest with
      | ',' :: rest2 => (parseItems fuel rest2).map fun r => (v :: r.1, r.2)
      | ']' :: rest2 => some ([v], rest2)
      | _ => none

end

/-- Models Python `json.loads`: parse one value and require only
whitespace after it; `none` models a raised `json.JSONDecodeError`. -/
def json_loads (s : String) : Option PyVal :=
  match parseValue (s.data.length + 1) s.data with
  | some (v, rest) => if (skipWs rest).isEmpty then some v else none
  | none => none

example : json_loads "\x7b\"action\": \"next\"\x7d" = some (.vDict [("action", .vStr "next")]) := rfl
example : json_loads "42" = some (.vInt 42) := rfl
example : json_loads "not json" = none := rfl
example : json_loads "[1, -2]" = some (.vList [.vInt 1, .vInt (-2)]) := rfl
example : json_loads "\x7b\"a\": \x7b\"b\": true\x7d\x7d"
    = some (.vDict [("a", .vDict [("b", .vBool true)])]) := rfl
example : json_loads "1.5" = some (.vFloat false ['1', '.', '5']) := rfl
example : json_loads "-2e10" = some (.vFloat false ['-', '2', 'e', '1', '0']) := rfl
example : json_loads "NaN" = some (.vFloat true "NaN".data) := rfl
example : json_loads "-Infinity" = some (.vFloat true "-Infinity".data) := rfl
example : json_loads "042" = none := rfl
example : json_loads "\x7b\"a\": 042\x7d" = none := rfl
example : json_loads "-0" = some (.vInt 0) := rfl
example : json_loads "\"a\tb\"" = none := rfl
example : json_loads "\"a\\nb\"" = some (.vStr "a\nb") := rfl
example : json_loads "\"\\u0041\"" = some (.vStr "A") := rfl
example : json_loads "\"\\ud83d\\ude00\"" = some (.vStr "😀") := rfl
example : json_loads "\"\\ud800\"" = some (.vStr ⟨[replacementChar]⟩) := rfl
example : json_loads "\"\\q\"" = none := rfl
example : json_loads "\x7b\"action\": \"a\", \"action\": \"detail\", \"index\": \"x\"\x7d"
    = some (.vDict [("action", .vStr "detail"), ("index", .vStr "x")]) := rfl

/-- The controller state of class `dbutton` (`button.py`).  The cached
attributes `filtered`, `page_data` and `total_pages` set by `_refresh`
are part of the state, exactly as in the source.  `selected_item = none`
models the attribute not having been set yet. -/
structure Controller where
  raw_data : List Record
  fields : List String
  page_size : Int
  filters : FilterSet
  current_page : Int
  filtered : List Record
  page_data : List Record
  total_pages : Int
  selected_item : Option Record
deriving DecidableEq

/-- `dbutton._refresh`: recompute `filtered`, `page_data` and
`total_pages` from the current data, filters and page. -/
def refresh (c : Controller) : Controller :=
  let filtered := apply_filters c.raw_data c.filters
  let pd := paginate filtered c.current_page c.page_size
  { c with filtered := filtered, page_data := pd.1, total_pages := pd.2 }

/-- Failure modes of `dbutton.__init__`: the explicit `ValueError` for
too many fields, and the `ZeroDivisionError` that `paginate` raises from
`_refresh` when `page_size == 0`. -/
inductive ConstructError where
  | valueError (msg : String)
  | zeroDivisionError
deriving DecidableEq

/-- `dbutton.__init__(data_source, fields, page_size, filters)` with the
default callback-data codec: validates the field count, stores the
arguments (`filters or {}`), sets `current_page = 1` and runs
`_refresh`. -/
def construct (data : List Record) (fields : List String) (page_size : Int)
    (filters : Option FilterSet) : Except ConstructError Controller :=
  if fields.length > 10 then .error (.valueError "Maximum 10 fields allowed")
  else if page_size = 0 then .error .zeroDivisionError
  else .ok (refresh
    { raw_data := data
      fields := fields
      page_size := page_size
      filters := filters.getD []
      current_page := 1
      filtered := []
      page_data := []
      total_pages := 0
      selected_item := none })

/-- `dbutton.set_filters(**kwargs)`: replace the filters, reset to page 1
and refresh. -/
def set_filters (c : Controller) (fs : FilterSet) : Controller :=
  refresh { c with filters := fs, current_page := 1 }

/-- `dbutton.next_page()`: advance when `current_page < total_pages`. -/
def next_page (c : Controller) : Bool × Controller :=
  if c.current_page < c.total_pages then
    (true, refresh { c with current_page := c.current_page + 1 })
  else (false, c)

/-- `dbutton.prev_page()`: go back when `current_page > 1`. -/
def prev_page (c : Controller) : Bool × Controller :=
  if c.current_page > 1 then
    (true, refresh { c with current_page := c.current_page - 1 })
  else (false, c)

/-- Python `sep.join(parts)`. -/
def strJoin (sep : String) : List String → String
  | [] => ""
  | [x] => x
  | x :: y :: rest => x ++ sep ++ strJoin sep (y :: rest)

/-- The abstract inline button of the spec's button grid: a label and the
serialized callback token (spec section 6). -/
structure Button where
  label : String
  callback_data : String
deriving DecidableEq

/-- The text-building loop of `dbutton.build_message`: one entry per
record of the current page, `enumerate(..., start=1)` index first, then
`str(record.get(field, ""))` for each configured field, joined by
`" — "`. -/
def buildLines (idx : Nat) (fields : List String) : List Record → List String
  | [] => []
  | r :: rest =>
    strJoin " — " (natStr idx :: fields.map (fun f => getField r f)) ::
      buildLines (idx + 1) fields rest

/-- The callback token of the numbered detail button `i + 1` built by
`dbutton.build_message`. -/
def detailTok (i : Nat) (page : Int) : Token :=
  [("action", .s "detail"), ("index", .i (i : Int)), ("page", .i page)]

/-- `dbutton.build_message`, with the framework-specific keyboard classes
abstracted to the spec's `(label, token)` grid: the message text (with
the `"No data available."` sentinel for empty joined text), one row per
visible record with a numbered detail button, and the optional
navigation row. -/
def build_message (c : Controller) : String × List (List Button) :=
  let lines := buildLines 1 c.fields c.page_data
  let joined := strJoin "\n" lines
  let text := if joined = "" then "No data available." else joined
  let item_rows := (List.range c.page_data.length).map fun i =>
    [Button.mk (natStr (i + 1)) (json_dumps (detailTok i c.current_page))]
  let nav :=
    (if c.current_page > 1 then
      [Button.mk "«" (json_dumps [("action", TokVal.s "prev")])]
     else []) ++
    (if c.current_page < c.total_pages then
      [Button.mk "»" (json_dumps [("action", TokVal.s "next")])]
     else [])
  let rows := if nav.isEmpty then item_rows else item_rows ++ [nav]
  (text, rows)

/-- Escapes from the ordinary `(handled, message)` return of
`dbutton._handle_callback`: `attrError` is the uncaught `AttributeError`
when the payload is not a dict (`data.get` fails); `typeError` is the
uncaught `TypeError` when a string/`None`/list/dict `index` is compared
with `0 <= index`; `floatCompare` marks the one outcome the model
leaves uninterpreted — a finite float `index` passes the comparison,
and `page_data[index]` then raises `TypeError` exactly when the
float's IEEE value lies in `[0, len)`, otherwise the handler returns
`(False, "Invalid item index")`; either way the state is unchanged,
which is all any claim relies on. -/
inductive PyExc where
  | attrError
  | typeError
  | floatCompare
deriving DecidableEq

/-- Python `action == "name"` for the value read out of the payload:
only a string compares equal to a string. -/
def isStrEq (v : Option PyVal) (s : String) : Bool :=
  match v with
  | some (.vStr t) => t == s
  | _ => false

/-- The integer value Python uses in `0 <= index < len(...)`: ints are
themselves, bools coerce (`True == 1`), anything else raises
`TypeError`. -/
def toIndex : PyVal → Option Int
  | .vInt n => some n
  | .vBool b => some (if b then 1 else 0)
  | _ => none

/-- Python `f"{index}"` for the values `toIndex` accepts. -/
def pyValStr : PyVal → String
  | .vInt n => intStr n
  | .vBool b => if b then "True" else "False"
  | _ => ""

/-- `List.lookup` with the keys of a Python dict, modelling
`data.get(key)`.  A Python dict has distinct keys — `pyDictOf` already
collapsed any duplicate members of a parsed JSON object — so the first
match is the only match; a `vDict` list with duplicate keys represents
no Python value. -/
def dictGet (o : List (String × PyVal)) (k : String) : Option PyVal :=
  List.lookup k o

/-- The `action == "detail"` branch of `dbutton._handle_callback` on the
value read for `index`: `0 <= index < len(self.page_data)` admits ints
and bools (`True == 1`) and selects the record; `NaN` and `±Infinity`
fail the comparison chain and report `"Invalid item index"`; a finite
float passes the comparison — `floatCompare` marks that unresolved
outcome — and any other type raises `TypeError` at `0 <= index`. -/
def detail_branch (c : Controller) (idxv : PyVal) :
    Except PyExc ((Bool × String) × Controller) :=
  match idxv with
  | .vFloat true _ => .ok ((false, "Invalid item index"), c)
  | .vFloat false _ => .error .floatCompare
  | v =>
    match toIndex v with
    | none => .error .typeError
    | some idx =>
      if h : 0 ≤ idx ∧ idx < (c.page_data.length : Int) then
        let r := c.page_data.get ⟨idx.toNat, by omega⟩
        .ok ((true, "Selected item " ++ pyValStr v),
             { c with selected_item := some r })
      else
        .ok ((false, "Invalid item index"), c)

/-- The action dispatch of `dbutton._handle_callback` once the payload is
structured data: `data.get("action")` raises `AttributeError` on
non-dicts; `"next"`/`"prev"` delegate to the pagination moves;
`"detail"` validates `index` (default 0) and records the selection;
anything else reports `"Unknown action"`. -/
def handle_payload (c : Controller) (data : PyVal) :
    Except PyExc ((Bool × String) × Controller) :=
  match data with
  | .vDict o =>
    let action := dictGet o "action"
    if isStrEq action "next" then
      match next_page c with
      | (true, c') => .ok ((true, "Next page"), c')
      | (false, c') => .ok ((false, "Already on last page"), c')
    else if isStrEq action "prev" then
      match prev_page c with
      | (true, c') => .ok ((true, "Previous page"), c')
      | (false, c') => .ok ((false, "Already on first page"), c')
    else if isStrEq action "detail" then
      detail_branch c ((dictGet o "index").getD (.vInt 0))
    else
      .ok ((false, "Unknown action"), c)
  | _ => .error .attrError

/-- `dbutton._handle_callback` (the spec's `decode_callback`) with the
default deserializer: strings are deserialized (`json.JSONDecodeError`
is caught and reported as `"Invalid callback data"`), anything else is
used as the structured payload directly. -/
def decode_callback (c : Controller) (input : PyVal) :
    Except PyExc ((Bool × String) × Controller) :=
  match input with
  | .vStr s =>
    match json_loads s with
    | none => .ok ((false, "Invalid callback data"), c)
    | some v => handle_payload c v
  | v => handle_payload c v

/-- The public operations of the controller, for stating the reachable
state invariant (spec section 4.2). -/
inductive Op where
  | setFilters (fs : FilterSet)
  | next
  | prev
  | render
  | decode (input : PyVal)

/-- The state transition of one public operation.  `render` does not
mutate; a `decode` whose callback escapes leaves the state unchanged
(the uncaught exceptions fire before any mutation, and both possible
outcomes of the unresolved `floatCompare` case leave the state
unchanged too). -/
def applyOp (c : Controller) : Op → Controller
  | .setFilters fs => set_filters c fs
  | .next => (next_page c).2
  | .prev => (prev_page c).2
  | .render => c
  | .decode input =>
    match decode_callback c input with
    | .ok r => r.2
    | .error _ => c

/-- A concrete 3-record data source for witnesses: records with fields
`name` and `status`. -/
def exData : List Record :=
  [[("name", "Ada"), ("status", "Active")],
   [("name", "Bob"), ("status", "Idle")],
   [("name", "Cy"), ("status", "active")]]

/-- A concrete controller over `exData` with page size 2 and no filters:
the result of `construct exData ["name", "status"] 2 none`. -/
def exCtl : Controller :=
  refresh
    { raw_data := exData
      fields := ["name", "status"]
      page_size := 2
      filters := []
      current_page := 1
      filtered := []
      page_data := []
      total_pages := 0
      selected_item := none }

example : construct exData ["name", "status"] 2 none = .ok exCtl := rfl
example : exCtl.total_pages = 2 := rfl
example : exCtl.page_data.length = 2 := rfl
example : (next_page exCtl).1 = true := rfl
example : (build_message exCtl).1 = "1 — Ada — Active\n2 — Bob — Idle" := rfl
example : decode_callback exCtl (.vStr "\x7b\"action\": \"detail\", \"index\": 1\x7d")
    = .ok ((true, "Selected item 1"),
           { exCtl with selected_item := some [("name", "Bob"), ("status", "Idle")] }) := rfl
example : decode_callback exCtl (.vStr "42") = .error .attrError := rfl
example : decode_callback exCtl (.vStr "oops") = .ok ((false, "Invalid callback data"), exCtl) := rfl
example : decode_callback exCtl (.vStr "1.5") = .error .attrError := rfl
example : decode_callback exCtl (.vStr "042") = .ok ((false, "Invalid callback data"), exCtl) := rfl
example : decode_callback exCtl
    (.vStr "\x7b\"action\": \"a\", \"action\": \"detail\", \"index\": \"x\"\x7d")
    = .error .typeError := rfl
example : decode_callback exCtl
    (.vStr "\x7b\"action\": \"detail\", \"index\": NaN\x7d")
    = .ok ((false, "Invalid item index"), exCtl) := rfl
example : decode_callback exCtl
    (.vStr "\x7b\"action\": \"detail\", \"index\": 1.5\x7d")
    = .error .floatCompare := rfl
example : (build_message exCtl).2 =
    [[⟨"1", "\x7b\"action\": \"detail\", \"index\": 0, \"page\": 1\x7d"⟩],
     [⟨"2", "\x7b\"action\": \"detail\", \"index\": 1, \"page\": 1\x7d"⟩],
     [⟨"»", "\x7b\"action\": \"next\"\x7d"⟩]] := rfl

theorem filterMatch_eq_all (fs : FilterSet) (r : Record) :
    filterMatch fs r = fs.all (fun kv => strLower (getField r kv.1) == strLower kv.2) := by
  induction fs with
  | nil => rfl
  | cons kv rest ih =>
    obtain ⟨key, val⟩ := kv
    by_cases h : strLower (getField r key) = strLower val
    · simp [filterMatch, h, ih]
    · simp [filterMatch, h]

theorem applyFiltersLoop_eq_filter (data : List Record) (fs : FilterSet) :
    applyFiltersLoop data fs = data.filter (filterMatch fs) := by
  induction data with
  | nil => rfl
  | cons r rest ih =>
    by_cases h : filterMatch fs r
    · simp [applyFiltersLoop, h, ih, List.filter_cons]
    · simp [applyFiltersLoop, h, ih, List.filter_cons]

/-- The spec's record predicate, written from its words: every `filters`
key matches case-insensitively, a missing field comparing as the empty
string (spec section 4.1). -/
def matchesSpec (fs : FilterSet) (r : Record) : Bool :=
  fs.all fun kv => strLower (getField r kv.1) == strLower kv.2

/-- C4: `apply_filters` returns exactly the records matching every filter
entry case-insensitively (missing fields as `""`), in the original
order, and the empty filter set is the identity. -/
theorem claim_C4_apply_filters (R : List Record) (f : FilterSet) :
    apply_filters R f = R.filter (matchesSpec f) ∧ apply_filters R [] = R := by
  refine ⟨?_, rfl⟩
  by_cases hf : f = []
  · subst hf
    have hall : ∀ r ∈ R, matchesSpec [] r := fun r _ => rfl
    simp [apply_filters, List.filter_eq_self.mpr hall]
  · rw [apply_filters, if_neg hf, applyFiltersLoop_eq_filter]
    exact List.filter_congr fun r _ => by rw [filterMatch_eq_all]; rfl

theorem fdiv_coe (m k : Nat) : ((m : Int)).fdiv ((k : Int)) = ((m / k : Nat) : Int) := by
  rw [Int.fdiv_eq_tdiv (Int.natCast_nonneg m) (Int.natCast_nonneg k)]
  exact (Int.ofNat_tdiv m k).symm

theorem paginate_total_pages (R : List Record) (page ps : Int) (hps : 0 < ps) :
    (paginate R page ps).2 = ((max 1 (ceilDiv R.length ps.toNat) : Nat) : Int) := by
  obtain ⟨p, rfl⟩ : ∃ p : Nat, ps = ((p : Int) + 1) := ⟨(ps - 1).toNat, by omega⟩
  have hnum : (R.length : Int) + ((p : Int) + 1) - 1 = ((R.length + p : Nat) : Int) := by
    omega
  have hden : ((p : Int) + 1) = (((p + 1 : Nat)) : Int) := by omega
  have hceil : ceilDiv R.length (p + 1) = (R.length + p) / (p + 1) := by
    rw [ceilDiv]
    congr 1
  show max 1 (((R.length : Int) + ((p : Int) + 1) - 1).fdiv ((p : Int) + 1)) = _
  rw [hnum, hden, fdiv_coe]
  have htn : ((((p + 1 : Nat)) : Int)).toNat = p + 1 := by omega
  rw [htn, hceil]
  omega

theorem le_ceilDiv_mul (a b : Nat) (hb : 0 < b) : a ≤ ceilDiv a b * b := by
  have h := Nat.div_add_mod (a + b - 1) b
  have hr := Nat.mod_lt (a + b - 1) hb
  have hc : ceilDiv a b * b = b * ((a + b - 1) / b) := by rw [ceilDiv]; ring
  omega

theorem length_le_total_pages_mul (R : List Record) (page ps : Int) (hps : 0 < ps) :
    (R.length : Int) ≤ (paginate R page ps).2 * ps := by
  rw [paginate_total_pages R page ps hps]
  have h1 : R.length ≤ max 1 (ceilDiv R.length ps.toNat) * ps.toNat :=
    le_trans (le_ceilDiv_mul _ _ (by omega))
      (Nat.mul_le_mul_right _ (le_max_right _ _))
  have hps' : ((ps.toNat : Nat) : Int) = ps := Int.toNat_of_nonneg (by omega)
  calc (R.length : Int)
      ≤ ((max 1 (ceilDiv R.length ps.toNat) * ps.toNat : Nat) : Int) := by exact_mod_cast h1
    _ = ((max 1 (ceilDiv R.length ps.toNat) : Nat) : Int) * ps := by push_cast [hps']; ring

theorem pySlice_nonneg {α : Type} (l : List α) (a b : Int) (ha : 0 ≤ a) (hb : 0 ≤ b) :
    pySlice l a b = (l.take b.toNat).drop a.toNat := by
  unfold pySlice pyResolve
  rw [if_neg (by omega), if_neg (by omega)]
  have h1 : (min b ((l.length : Nat) : Int)).toNat = min b.toNat l.length := by omega
  have h2 : (min a ((l.length : Nat) : Int)).toNat = min a.toNat l.length := by omega
  rw [h1, h2]
  have ht : l.take (min b.toNat l.length) = l.take b.toNat := by
    rcases le_total b.toNat l.length with h | h
    · rw [min_eq_left h]
    · rw [min_eq_right h, List.take_length, List.take_of_length_le h]
  rw [ht]
  rcases le_total a.toNat l.length with h | h
  · rw [min_eq_left h]
  · rw [min_eq_right h]
    have hlen : (l.take b.toNat).length ≤ l.length := by
      rw [List.length_take]
      omega
    rw [List.drop_eq_nil_of_le hlen, List.drop_eq_nil_of_le (hlen.trans h)]

theorem paginate_slice_pos (R : List Record) (page ps : Int) (hpage : 1 ≤ page)
    (hps : 0 < ps) :
    (paginate R page ps).1 = (R.drop (((page - 1) * ps).toNat)).take ps.toNat := by
  have ha : 0 ≤ (page - 1) * ps := mul_nonneg (by omega) (by omega)
  show pySlice R ((page - 1) * ps) ((page - 1) * ps + ps) = _
  rw [pySlice_nonneg R _ _ ha (by omega), List.drop_take]
  congr 1
  omega

theorem chunks_flatten (ps : Nat) (_hps : 0 < ps) :
    ∀ (n : Nat) (l : List Record), l.length ≤ n * ps →
      ((List.range n).map (fun k => (l.drop (k * ps)).take ps)).flatten = l := by
  intro n
  induction n with
  | zero =>
    intro l hl
    simp only [Nat.zero_mul, Nat.le_zero, List.length_eq_zero] at hl
    simp [hl]
  | succ n ih =>
    intro l hl
    rw [List.range_succ_eq_map, List.map_cons, List.map_map]
    have h0 : (l.drop (0 * ps)).take ps = l.take ps := by simp
    have hcomp : ((fun k => (l.drop (k * ps)).take ps) ∘ Nat.succ)
        = fun k => ((l.drop ps).drop (k * ps)).take ps := by
      funext k
      have hmul : Nat.succ k * ps = ps + k * ps := by
        rw [Nat.succ_mul]
        omega
      simp only [Function.comp, hmul, List.drop_drop]
    rw [h0, hcomp, List.flatten_cons]
    have hsm : (n + 1) * ps = n * ps + ps := by ring
    have hlen : (l.drop ps).length ≤ n * ps := by
      rw [List.length_drop]
      omega
    rw [ih (l.drop ps) hlen]
    exact List.take_append_drop ps l

theorem paginate_slice_nat (R : List Record) (k : Nat) (ps : Int) (hps : 0 < ps) :
    (paginate R ((k : Int) + 1) ps).1 = (R.drop (k * ps.toNat)).take ps.toNat := by
  rw [paginate_slice_pos R ((k : Int) + 1) ps (by omega) hps]
  have hps' : ((ps.toNat : Nat) : Int) = ps := Int.toNat_of_nonneg (by omega)
  have h1 : ((k : Int) + 1 - 1) * ps = ((k * ps.toNat : Nat) : Int) := by
    push_cast [hps']
    ring
  rw [h1]
  congr 1

/-- C5: for every record list and positive page size, the page slices for
pages `1 .. total_pages` concatenate back to the record list in page
order, their lengths sum to its length, and each page `k + 1` is the
contiguous index window `[k * page_size, (k + 1) * page_size)`, so
distinct pages cover pairwise disjoint index ranges. -/
theorem claim_C5_partition (R : List Record) (ps : Int) (hps : 0 < ps) :
    (((List.range (paginate R 1 ps).2.toNat).map
        (fun (k : Nat) => (paginate R ((k : Int) + 1) ps).1)).flatten = R) ∧
    (((List.range (paginate R 1 ps).2.toNat).map
        (fun (k : Nat) => (paginate R ((k : Int) + 1) ps).1.length)).sum = R.length) ∧
    (∀ k : Nat, (paginate R ((k : Int) + 1) ps).1
        = (R.drop (k * ps.toNat)).take ps.toNat) := by
  have hslice : ∀ k : Nat, (paginate R ((k : Int) + 1) ps).1
      = (R.drop (k * ps.toNat)).take ps.toNat := fun k => paginate_slice_nat R k ps hps
  have hbound : R.length ≤ (paginate R 1 ps).2.toNat * ps.toNat := by
    have h1 := length_le_total_pages_mul R 1 ps hps
    have h2 : 0 < (paginate R 1 ps).2 := by
      rw [paginate_total_pages R 1 ps hps]
      omega
    have hps' : ((ps.toNat : Nat) : Int) = ps := Int.toNat_of_nonneg (by omega)
    have htp : (((paginate R 1 ps).2.toNat : Nat) : Int) = (paginate R 1 ps).2 :=
      Int.toNat_of_nonneg (by omega)
    have hcast : (((paginate R 1 ps).2.toNat * ps.toNat : Nat) : Int)
        = (paginate R 1 ps).2 * ps := by
      push_cast [hps', htp]
      ring
    omega
  have hmap : ((List.range (paginate R 1 ps).2.toNat).map
      (fun (k : Nat) => (paginate R ((k : Int) + 1) ps).1))
      = (List.range (paginate R 1 ps).2.toNat).map
        (fun (k : Nat) => (R.drop (k * ps.toNat)).take ps.toNat) :=
    List.map_congr_left fun k _ => hslice k
  have hflat : ((List.range (paginate R 1 ps).2.toNat).map
      (fun (k : Nat) => (paginate R ((k : Int) + 1) ps).1)).flatten = R := by
    rw [hmap]
    exact chunks_flatten ps.toNat (by omega) _ R hbound
  refine ⟨hflat, ?_, hslice⟩
  have hlen := congrArg List.length hflat
  rw [List.length_flatten, List.map_map] at hlen
  simpa [Function.comp] using hlen

/-- C3 (counterexample): the claim's "out-of-range page yields an empty
slice" is false for negative pages, where Python's negative-index
slicing wraps around: page `-1` of a 2-record list with page size 1 is
outside `[1, total_pages] = [1, 2]` yet returns the first record, not
the empty slice. -/
theorem claim_C3_counterexample :
    ((-1 : Int) < 1 ∨ (paginate [[("a", "1")], [("a", "2")]] (-1) 1).2 < -1) ∧
    (paginate [[("a", "1")], [("a", "2")]] (-1) 1).1 ≠ [] := by
  constructor
  · left
    decide
  · decide

theorem pySlice_stop_zero {α : Type} (l : List α) (a : Int) : pySlice l a 0 = [] := by
  unfold pySlice pyResolve
  have h0 : ¬ ((0 : Int) < 0) := by omega
  rw [if_neg h0]
  have hmin : (min (0 : Int) ((l.length : Nat) : Int)).toNat = 0 := by omega
  rw [hmin]
  simp

/-- C3 (amended: restricted to `page ≥ 0`; for negative pages Python's
negative-index slicing wraps and can return a non-empty slice): for
every record list, page `≥ 0` and positive page size, `paginate` returns
`total_pages = max(1, ceil(len(records) / page_size))` together with the
slice from `(page-1)*page_size` to `(page-1)*page_size + page_size`
clamped to the sequence bounds, and every such page outside
`[1, total_pages]` yields the empty slice without an error. -/
theorem claim_C3_paginate (R : List Record) (page ps : Int) (hpage : 0 ≤ page)
    (hps : 0 < ps) :
    (paginate R page ps).2 = ((max 1 (ceilDiv R.length ps.toNat) : Nat) : Int) ∧
    (paginate R page ps).1
      = (R.take (((page - 1) * ps + ps).toNat)).drop (((page - 1) * ps).toNat) ∧
    ((page = 0 ∨ (paginate R page ps).2 < page) → (paginate R page ps).1 = []) := by
  refine ⟨paginate_total_pages R page ps hps, ?_, ?_⟩
  · rcases eq_or_lt_of_le hpage with h0 | h1
    · have hz : (page - 1) * ps + ps = 0 := by rw [← h0]; ring
      show pySlice R ((page - 1) * ps) ((page - 1) * ps + ps) = _
      rw [hz, pySlice_stop_zero]
      simp
    · show pySlice R ((page - 1) * ps) ((page - 1) * ps + ps) = _
      have ha : 0 ≤ (page - 1) * ps := mul_nonneg (by omega) (by omega)
      exact pySlice_nonneg R _ _ ha (by omega)
  · intro hout
    rcases hout with h0 | hgt
    · have hz : (page - 1) * ps + ps = 0 := by rw [h0]; ring
      show pySlice R ((page - 1) * ps) ((page - 1) * ps + ps) = []
      rw [hz, pySlice_stop_zero]
    · have hp1 : 1 ≤ page := by
        have h2 : 0 < (paginate R page ps).2 := by
          rw [paginate_total_pages R page ps hps]
          omega
        omega
      rw [paginate_slice_pos R page ps hp1 hps]
      have hlenle := length_le_total_pages_mul R page ps hps
      have hstart : (R.length : Int) ≤ (page - 1) * ps := by
        have hmono : (paginate R page ps).2 * ps ≤ (page - 1) * ps :=
          mul_le_mul_of_nonneg_right (by omega) (by omega)
        omega
      have hdrop : R.length ≤ ((page - 1) * ps).toNat := by omega
      rw [List.drop_eq_nil_of_le hdrop]
      simp

/-- The C2 state invariant: positive page size (the spec's data model
declares `page_size` a positive integer), a current page clamped into
`[1, total_pages]`, and the cached `total_pages` agreeing with
`max(1, ceil(filtered_count / page_size))`. -/
def CtlInv (c : Controller) : Prop :=
  0 < c.page_size ∧
  1 ≤ c.current_page ∧
  c.current_page ≤ c.total_pages ∧
  c.total_pages
    = ((max 1 (ceilDiv (apply_filters c.raw_data c.filters).length c.page_size.toNat) : Nat) : Int)

theorem refresh_inv_core (c : Controller) (hps : 0 < c.page_size)
    (h1 : 1 ≤ c.current_page)
    (h2 : c.current_page
      ≤ ((max 1 (ceilDiv (apply_filters c.raw_data c.filters).length c.page_size.toNat) : Nat) : Int)) :
    CtlInv (refresh c) := by
  have htp : (refresh c).total_pages
      = ((max 1 (ceilDiv (apply_filters c.raw_data c.filters).length c.page_size.toNat) : Nat) : Int) := by
    show (paginate (apply_filters c.raw_data c.filters) c.current_page c.page_size).2 = _
    exact paginate_total_pages _ _ _ hps
  refine ⟨hps, h1, ?_, ?_⟩
  · show c.current_page ≤ (refresh c).total_pages
    rw [htp]
    exact h2
  · rw [htp]
    rfl

theorem one_le_max_cast (x : Nat) : (1 : Int) ≤ ((max 1 x : Nat) : Int) := by
  have := le_max_left 1 x
  omega

theorem inv_set_filters (c : Controller) (fs : FilterSet) (hps : 0 < c.page_size) :
    CtlInv (set_filters c fs) := by
  apply refresh_inv_core
  · exact hps
  · exact le_refl 1
  · exact one_le_max_cast _

theorem inv_next (c : Controller) (h : CtlInv c) : CtlInv (next_page c).2 := by
  obtain ⟨hps, h1, h2, h3⟩ := h
  unfold next_page
  by_cases hlt : c.current_page < c.total_pages
  · rw [if_pos hlt]
    show CtlInv (refresh { c with current_page := c.current_page + 1 })
    apply refresh_inv_core
    · exact hps
    · show (1 : Int) ≤ c.current_page + 1
      omega
    · show c.current_page + 1
        ≤ ((max 1 (ceilDiv (apply_filters c.raw_data c.filters).length c.page_size.toNat) : Nat) : Int)
      omega
  · rw [if_neg hlt]
    exact ⟨hps, h1, h2, h3⟩

theorem inv_prev (c : Controller) (h : CtlInv c) : CtlInv (prev_page c).2 := by
  obtain ⟨hps, h1, h2, h3⟩ := h
  unfold prev_page
  by_cases hgt : c.current_page > 1
  · rw [if_pos hgt]
    show CtlInv (refresh { c with current_page := c.current_page - 1 })
    apply refresh_inv_core
    · exact hps
    · show (1 : Int) ≤ c.current_page - 1
      omega
    · show c.current_page - 1
        ≤ ((max 1 (ceilDiv (apply_filters c.raw_data c.filters).length c.page_size.toNat) : Nat) : Int)
      omega
  · rw [if_neg hgt]
    exact ⟨hps, h1, h2, h3⟩

theorem inv_selected (c : Controller) (rec : Record) (h : CtlInv c) :
    CtlInv { c with selected_item := some rec } := h

theorem detail_branch_state (c : Controller) (idxv : PyVal) (r : Bool × String)
    (c' : Controller) (h : detail_branch c idxv = .ok (r, c')) :
    c' = c ∨ ∃ rec, c' = { c with selected_item := some rec } := by
  rcases idxv with _ | b | n | s | ⟨sp, lit⟩ | xs | o
  case vNull => simp [detail_branch, toIndex] at h
  case vStr => simp [detail_branch, toIndex] at h
  case vList => simp [detail_branch, toIndex] at h
  case vDict => simp [detail_branch, toIndex] at h
  case vFloat =>
    cases sp
    · simp [detail_branch] at h
    · simp only [detail_branch, Except.ok.injEq] at h
      left
      exact (congrArg Prod.snd h).symm
  case vBool =>
    simp only [detail_branch, toIndex] at h
    by_cases h4 : 0 ≤ (if b then (1 : Int) else 0) ∧
        (if b then (1 : Int) else 0) < ((c.page_data.length : Nat) : Int)
    · rw [dif_pos h4] at h
      simp only [Except.ok.injEq] at h
      right
      exact ⟨_, (congrArg Prod.snd h).symm⟩
    · rw [dif_neg h4] at h
      simp only [Except.ok.injEq] at h
      left
      exact (congrArg Prod.snd h).symm
  case vInt =>
    simp only [detail_branch, toIndex] at h
    by_cases h4 : 0 ≤ n ∧ n < ((c.page_data.length : Nat) : Int)
    · rw [dif_pos h4] at h
      simp only [Except.ok.injEq] at h
      right
      exact ⟨_, (congrArg Prod.snd h).symm⟩
    · rw [dif_neg h4] at h
      simp only [Except.ok.injEq] at h
      left
      exact (congrArg Prod.snd h).symm

theorem detail_branch_ok (c : Controller) (idxv : PyVal)
    (hsome : (toIndex idxv).isSome = true) :
    (detail_branch c idxv).isOk = true := by
  rcases idxv with _ | b | n | s | ⟨sp, lit⟩ | xs | o
  case vNull => simp [toIndex] at hsome
  case vStr => simp [toIndex] at hsome
  case vList => simp [toIndex] at hsome
  case vDict => simp [toIndex] at hsome
  case vFloat => simp [toIndex] at hsome
  case vBool =>
    simp only [detail_branch, toIndex]
    by_cases h4 : 0 ≤ (if b then (1 : Int) else 0) ∧
        (if b then (1 : Int) else 0) < ((c.page_data.length : Nat) : Int)
    · rw [dif_pos h4]
      rfl
    · rw [dif_neg h4]
      rfl
  case vInt =>
    simp only [detail_branch, toIndex]
    by_cases h4 : 0 ≤ n ∧ n < ((c.page_data.length : Nat) : Int)
    · rw [dif_pos h4]
      rfl
    · rw [dif_neg h4]
      rfl

theorem handle_payload_state (c : Controller) (data : PyVal) (r : Bool × String)
    (c' : Controller) (h : handle_payload c data = .ok (r, c')) :
    c' = c ∨ c' = (next_page c).2 ∨ c' = (prev_page c).2 ∨
      ∃ rec, c' = { c with selected_item := some rec } := by
  rcases data with _ | b | n | s | ⟨sp, lit⟩ | xs | o
  case vNull => simp [handle_payload] at h
  case vBool => simp [handle_payload] at h
  case vInt => simp [handle_payload] at h
  case vStr => simp [handle_payload] at h
  case vFloat => simp [handle_payload] at h
  case vList => simp [handle_payload] at h
  case vDict =>
  simp only [handle_payload] at h
  by_cases h1 : isStrEq (dictGet o "action") "next"
  · rw [if_pos h1] at h
    rcases hnp : next_page c with ⟨b2, c2⟩
    rw [hnp] at h
    cases b2
    · simp only [Except.ok.injEq] at h
      right; left
      exact (congrArg Prod.snd h).symm
    · simp only [Except.ok.injEq] at h
      right; left
      exact (congrArg Prod.snd h).symm
  · rw [if_neg h1] at h
    by_cases h2 : isStrEq (dictGet o "action") "prev"
    · rw [if_pos h2] at h
      rcases hpp : prev_page c with ⟨b2, c2⟩
      rw [hpp] at h
      cases b2
      · simp only [Except.ok.injEq] at h
        right; right; left
        exact (congrArg Prod.snd h).symm
      · simp only [Except.ok.injEq] at h
        right; right; left
        exact (congrArg Prod.snd h).symm
    · rw [if_neg h2] at h
      by_cases h3 : isStrEq (dictGet o "action") "detail"
      · rw [if_pos h3] at h
        rcases detail_branch_state c _ r c' h with rfl | ⟨rec, hrec⟩
        · left; rfl
        · right; right; right
          exact ⟨rec, hrec⟩
      · rw [if_neg h3] at h
        simp only [Except.ok.injEq] at h
        left
        exact (congrArg Prod.snd h).symm

theorem decode_state (c : Controller) (input : PyVal) (r : Bool × String)
    (c' : Controller) (h : decode_callback c input = .ok (r, c')) :
    c' = c ∨ c' = (next_page c).2 ∨ c' = (prev_page c).2 ∨
      ∃ rec, c' = { c with selected_item := some rec } := by
  rcases input with _ | b | n | s | ⟨sp, lit⟩ | xs | o
  case vNull =>
    have h' : handle_payload c .vNull = .ok (r, c') := h
    exact handle_payload_state c _ r c' h'
  case vBool =>
    have h' : handle_payload c (.vBool b) = .ok (r, c') := h
    exact handle_payload_state c _ r c' h'
  case vInt =>
    have h' : handle_payload c (.vInt n) = .ok (r, c') := h
    exact handle_payload_state c _ r c' h'
  case vFloat =>
    have h' : handle_payload c (.vFloat sp lit) = .ok (r, c') := h
    exact handle_payload_state c _ r c' h'
  case vList =>
    have h' : handle_payload c (.vList xs) = .ok (r, c') := h
    exact handle_payload_state c _ r c' h'
  case vDict =>
    have h' : handle_payload c (.vDict o) = .ok (r, c') := h
    exact handle_payload_state c _ r c' h'
  case vStr =>
    simp only [decode_callback] at h
    rcases hjl : json_loads s with _ | v
    · rw [hjl] at h
      simp only [Except.ok.injEq] at h
      left
      exact (congrArg Prod.snd h).symm
    · rw [hjl] at h
      exact handle_payload_state c v r c' h

theorem inv_applyOp (c : Controller) (op : Op) (h : CtlInv c) : CtlInv (applyOp c op) := by
  rcases op with fs | _ | _ | _ | input
  · exact inv_set_filters c fs h.1
  · exact inv_next c h
  · exact inv_prev c h
  · exact h
  · show CtlInv (match decode_callback c input with | .ok r => r.2 | .error _ => c)
    rcases hd : decode_callback c input with e | r2
    · exact h
    · rcases r2 with ⟨r, c'⟩
      rcases decode_state c input r c' hd with rfl | rfl | rfl | ⟨rec, rfl⟩
      · exact h
      · exact inv_next c h
      · exact inv_prev c h
      · exact inv_selected c rec h

/-- C2: for every successfully constructed controller (the spec's data
model takes `page_size` to be a positive integer) and every sequence of
public operations, the reached state satisfies
`1 ≤ current_page ≤ total_pages` and
`total_pages = max(1, ceil(filtered_count / page_size))`, where
`filtered_count` is the length of `apply_filters(all_records, filters)`. -/
theorem claim_C2_invariant (data : List Record) (fields : List String) (ps : Int)
    (fs : Option FilterSet) (c₀ : Controller)
    (hc : construct data fields ps fs = .ok c₀) (hps : 0 < ps) (ops : List Op) :
    1 ≤ (ops.foldl applyOp c₀).current_page ∧
    (ops.foldl applyOp c₀).current_page ≤ (ops.foldl applyOp c₀).total_pages ∧
    (ops.foldl applyOp c₀).total_pages
      = ((max 1 (ceilDiv (apply_filters (ops.foldl applyOp c₀).raw_data
            (ops.foldl applyOp c₀).filters).length
            (ops.foldl applyOp c₀).page_size.toNat) : Nat) : Int) := by
  have h0 : CtlInv c₀ := by
    unfold construct at hc
    by_cases hf : fields.length > 10
    · rw [if_pos hf] at hc
      simp at hc
    · rw [if_neg hf, if_neg (by omega : ¬ ps = 0)] at hc
      simp only [Except.ok.injEq] at hc
      subst hc
      apply refresh_inv_core
      · exact hps
      · exact le_refl 1
      · exact one_le_max_cast _
  have hfold : ∀ (l : List Op) (c : Controller), CtlInv c → CtlInv (l.foldl applyOp c) := by
    intro l
    induction l with
    | nil => intro c hcv; exact hcv
    | cons op rest ih =>
      intro c hcv
      exact ih _ (inv_applyOp c op hcv)
  obtain ⟨_, h1, h2, h3⟩ := hfold ops c₀ h0
  exact ⟨h1, h2, h3⟩

theorem claim_C2_invariant_witness :
    construct exData ["name", "status"] 2 none = .ok exCtl ∧ (0 : Int) < 2 ∧
    (1 ≤ (([Op.next, Op.render, Op.prev]).foldl applyOp exCtl).current_page ∧
     (([Op.next, Op.render, Op.prev]).foldl applyOp exCtl).current_page
       ≤ (([Op.next, Op.render, Op.prev]).foldl applyOp exCtl).total_pages ∧
     (([Op.next, Op.render, Op.prev]).foldl applyOp exCtl).total_pages
       = ((max 1 (ceilDiv (apply_filters (([Op.next, Op.render, Op.prev]).foldl applyOp exCtl).raw_data
             (([Op.next, Op.render, Op.prev]).foldl applyOp exCtl).filters).length
             (([Op.next, Op.render, Op.prev]).foldl applyOp exCtl).page_size.toNat) : Nat) : Int)) :=
  ⟨rfl, by decide,
   claim_C2_invariant exData ["name", "status"] 2 none exCtl rfl (by decide) _⟩

theorem decode_next_eq (c : Controller) :
    decode_callback c (.vDict [("action", .vStr "next")])
      = match next_page c with
        | (true, c') => .ok ((true, "Next page"), c')
        | (false, c') => .ok ((false, "Already on last page"), c') := rfl

theorem decode_prev_eq (c : Controller) :
    decode_callback c (.vDict [("action", .vStr "prev")])
      = match prev_page c with
        | (true, c') => .ok ((true, "Previous page"), c')
        | (false, c') => .ok ((false, "Already on first page"), c') := rfl

/-- C6: `next_page` succeeds (returning true and incrementing the page,
with every other constructor-supplied field unchanged) exactly when
`current_page < total_pages`, and otherwise returns false leaving the
state unchanged; `prev_page` symmetrically guards `current_page > 1`;
through `decode_callback`, action `"next"` reports
`(true, "Next page")` / `(false, "Already on last page")` and `"prev"`
reports `(true, "Previous page")` / `(false, "Already on first page")`. -/
theorem claim_C6_navigation (c : Controller) :
    ((next_page c).1 = true ↔ c.current_page < c.total_pages) ∧
    ((next_page c).1 = false → (next_page c).2 = c) ∧
    ((next_page c).1 = true → (next_page c).2.current_page = c.current_page + 1
      ∧ (next_page c).2.raw_data = c.raw_data ∧ (next_page c).2.fields = c.fields
      ∧ (next_page c).2.page_size = c.page_size ∧ (next_page c).2.filters = c.filters
      ∧ (next_page c).2.selected_item = c.selected_item) ∧
    ((prev_page c).1 = true ↔ 1 < c.current_page) ∧
    ((prev_page c).1 = false → (prev_page c).2 = c) ∧
    ((prev_page c).1 = true → (prev_page c).2.current_page = c.current_page - 1
      ∧ (prev_page c).2.raw_data = c.raw_data ∧ (prev_page c).2.fields = c.fields
      ∧ (prev_page c).2.page_size = c.page_size ∧ (prev_page c).2.filters = c.filters
      ∧ (prev_page c).2.selected_item = c.selected_item) ∧
    (decode_callback c (.vDict [("action", .vStr "next")])
      = if c.current_page < c.total_pages
        then .ok ((true, "Next page"), (next_page c).2)
        else .ok ((false, "Already on last page"), c)) ∧
    (decode_callback c (.vDict [("action", .vStr "prev")])
      = if 1 < c.current_page
        then .ok ((true, "Previous page"), (prev_page c).2)
        else .ok ((false, "Already on first page"), c)) := by
  refine ⟨?_, ?_, ?_, ?_, ?_, ?_, ?_, ?_⟩
  · by_cases hlt : c.current_page < c.total_pages <;> simp [next_page, hlt]
  · by_cases hlt : c.current_page < c.total_pages <;> simp [next_page, hlt]
  · by_cases hlt : c.current_page < c.total_pages <;> simp [next_page, hlt, refresh]
  · by_cases hgt : 1 < c.current_page <;> simp [prev_page, hgt]
  · by_cases hgt : 1 < c.current_page <;> simp [prev_page, hgt]
  · by_cases hgt : 1 < c.current_page <;> simp [prev_page, hgt, refresh]
  · rw [decode_next_eq]
    by_cases hlt : c.current_page < c.total_pages <;> simp [next_page, hlt]
  · rw [decode_prev_eq]
    by_cases hgt : 1 < c.current_page <;> simp [prev_page, hgt]

theorem claim_C6_navigation_witness :
    (next_page exCtl).1 = true ∧ (next_page exCtl).2.current_page = 2 ∧
    (prev_page exCtl).1 = false ∧ (prev_page exCtl).2 = exCtl ∧
    decode_callback exCtl (.vDict [("action", .vStr "prev")])
      = .ok ((false, "Already on first page"), exCtl) := by
  have h := claim_C6_navigation exCtl
  refine ⟨h.1.mpr (by decide), ?_, ?_, ?_, ?_⟩
  · have := (h.2.2.1 (h.1.mpr (by decide))).1
    rw [this]
    decide
  · exact (by decide : (prev_page exCtl).1 = false)
  · exact h.2.2.2.2.1 (by decide)
  · rw [h.2.2.2.2.2.2.2]
    rw [if_neg (by decide)]

theorem decode_detail_eq (c : Controller) (i : Int) :
    decode_callback c (.vDict [("action", .vStr "detail"), ("index", .vInt i)])
      = if h : 0 ≤ i ∧ i < ((c.page_data.length : Nat) : Int)
        then .ok ((true, "Selected item " ++ intStr i),
          { c with selected_item := some (c.page_data.get ⟨i.toNat, by omega⟩) })
        else .ok ((false, "Invalid item index"), c) := rfl

theorem decode_detail_noindex_eq (c : Controller) :
    decode_callback c (.vDict [("action", .vStr "detail")])
      = if h : 0 ≤ (0 : Int) ∧ (0 : Int) < ((c.page_data.length : Nat) : Int)
        then .ok ((true, "Selected item 0"),
          { c with selected_item := some (c.page_data.get ⟨(0 : Int).toNat, by omega⟩) })
        else .ok ((false, "Invalid item index"), c) := rfl

/-- C7: `decode_callback` with action `"detail"` reads `index`
(defaulting to 0 when absent); when `0 ≤ index < len(page slice)` it
records the record at that position of the page slice as
`selected_item` and reports `(true, "Selected item {index}")`, and
otherwise reports `(false, "Invalid item index")` leaving the state
unchanged. -/
theorem claim_C7_detail (c : Controller) (i : Int) :
    (0 ≤ i ∧ i < ((c.page_data.length : Nat) : Int) →
      decode_callback c (.vDict [("action", .vStr "detail"), ("index", .vInt i)])
        = .ok ((true, "Selected item " ++ intStr i),
            { c with selected_item := c.page_data[i.toNat]? })) ∧
    (¬ (0 ≤ i ∧ i < ((c.page_data.length : Nat) : Int)) →
      decode_callback c (.vDict [("action", .vStr "detail"), ("index", .vInt i)])
        = .ok ((false, "Invalid item index"), c)) ∧
    (decode_callback c (.vDict [("action", .vStr "detail")])
      = if 0 < c.page_data.length
        then .ok ((true, "Selected item 0"),
               { c with selected_item := c.page_data[0]? })
        else .ok ((false, "Invalid item index"), c)) := by
  refine ⟨?_, ?_, ?_⟩
  · intro h
    rw [decode_detail_eq, dif_pos h]
    have hi : i.toNat < c.page_data.length := by omega
    have : c.page_data[i.toNat]? = some (c.page_data.get ⟨i.toNat, hi⟩) := by
      rw [List.getElem?_eq_getElem hi]
      rfl
    rw [this]
  · intro h
    rw [decode_detail_eq, dif_neg h]
  · rw [decode_detail_noindex_eq]
    by_cases h0 : 0 < c.page_data.length
    · rw [dif_pos (by constructor <;> omega), if_pos h0]
      have : c.page_data[(0 : Nat)]? = some (c.page_data.get ⟨(0 : Int).toNat, by omega⟩) := by
        rw [List.getElem?_eq_getElem h0]
        rfl
      rw [this]
    · rw [dif_neg (by omega), if_neg h0]

theorem claim_C7_detail_witness :
    ((0 : Int) ≤ 1 ∧ (1 : Int) < ((exCtl.page_data.length : Nat) : Int)) ∧
    decode_callback exCtl (.vDict [("action", .vStr "detail"), ("index", .vInt 1)])
      = .ok ((true, "Selected item 1"),
          { exCtl with selected_item := exCtl.page_data[(1 : Int).toNat]? }) ∧
    decode_callback exCtl (.vDict [("action", .vStr "detail"), ("index", .vInt 5)])
      = .ok ((false, "Invalid item index"), exCtl) :=
  ⟨by decide,
   (claim_C7_detail exCtl 1).1 (by decide),
   (claim_C7_detail exCtl 5).2.1 (by decide)⟩

/-- C1 (counterexample): the string `"42"` deserializes successfully (to
an integer, not a dict), after which `data.get("action")` raises
`AttributeError` — so `decode_callback` does not return a
`(handled, message)` pair for every string input. -/
theorem claim_C1_counterexample :
    json_loads "42" = some (.vInt 42) ∧
    decode_callback exCtl (.vStr "42") = .error .attrError :=
  ⟨rfl, rfl⟩

theorem handle_payload_ok (c : Controller) (o : List (String × PyVal))
    (h : dictGet o "action" = some (.vStr "detail") →
      (toIndex ((dictGet o "index").getD (.vInt 0))).isSome = true) :
    (handle_payload c (.vDict o)).isOk = true := by
  simp only [handle_payload]
  by_cases h1 : isStrEq (dictGet o "action") "next"
  · rw [if_pos h1]
    rcases next_page c with ⟨b, c2⟩
    cases b <;> rfl
  · rw [if_neg h1]
    by_cases h2 : isStrEq (dictGet o "action") "prev"
    · rw [if_pos h2]
      rcases prev_page c with ⟨b, c2⟩
      cases b <;> rfl
    · rw [if_neg h2]
      by_cases h3 : isStrEq (dictGet o "action") "detail"
      · rw [if_pos h3]
        have hdet : dictGet o "action" = some (.vStr "detail") := by
          rcases hv : dictGet o "action" with _ | v
          · rw [hv] at h3
            simp [isStrEq] at h3
          · rw [hv] at h3
            rcases v with _ | b | n | t | ⟨sp, lit⟩ | xs | o2
            case vStr =>
              simp [isStrEq] at h3
              rw [h3]
            all_goals simp [isStrEq] at h3
        exact detail_branch_ok c _ (h hdet)
      · rw [if_neg h3]
        rfl

/-- C1 (amended: restricted to inputs the handler can process — the
claim as stated is refuted by `claim_C1_counterexample`): for every
string the deserializer fails to decode, `decode_callback` returns
`(false, "Invalid callback data")` with the state unchanged; and for
every payload that is a dict whose `index` entry (when the action is
`"detail"`) is an integer or bool — whether given directly or decoded
from a string (a JSON object keeps the last value of a duplicate key,
as Python dicts do) — `decode_callback` returns an ordinary `(handled,
message)` result without raising.  Other inputs escape the except
clause instead: a non-dict deserialization result (int, float, string,
list, bool or null) raises `AttributeError` at `data.get`; under
action `"detail"`, a string/`None`/list/dict `index` raises
`TypeError` at `0 <= index`, while a float `index` passes the
comparison — `NaN` and `±Infinity` fail the range check and report
`"Invalid item index"`, and a finite float raises `TypeError` at
`page_data[index]` exactly when its IEEE value lies in range. -/
theorem claim_C1_decode_total (c : Controller) (s : String)
    (o : List (String × PyVal)) :
    (json_loads s = none →
      decode_callback c (.vStr s) = .ok ((false, "Invalid callback data"), c)) ∧
    ((dictGet o "action" = some (.vStr "detail") →
        (toIndex ((dictGet o "index").getD (.vInt 0))).isSome = true) →
      (decode_callback c (.vDict o)).isOk = true ∧
      (json_loads s = some (.vDict o) →
        (decode_callback c (.vStr s)).isOk = true)) := by
  refine ⟨?_, fun hidx => ⟨?_, ?_⟩⟩
  · intro hn
    simp only [decode_callback]
    rw [hn]
  · have hde : decode_callback c (.vDict o) = handle_payload c (.vDict o) := rfl
    rw [hde]
    exact handle_payload_ok c o hidx
  · intro hsome
    simp only [decode_callback]
    rw [hsome]
    exact handle_payload_ok c o hidx

theorem claim_C1_decode_total_witness :
    json_loads "oops" = none ∧
    decode_callback exCtl (.vStr "oops") = .ok ((false, "Invalid callback data"), exCtl) ∧
    (decode_callback exCtl (.vDict [("action", PyVal.vStr "next")])).isOk = true :=
  ⟨rfl,
   (claim_C1_decode_total exCtl "oops" [("action", PyVal.vStr "next")]).1 rfl,
   ((claim_C1_decode_total exCtl "oops" [("action", PyVal.vStr "next")]).2
     (by
       intro h
       rw [show dictGet [("action", PyVal.vStr "next")] "action"
             = some (PyVal.vStr "next") from rfl] at h
       simp only [Option.some.injEq, PyVal.vStr.injEq] at h
       exact absurd h (by decide))).1⟩

/-- C10: construction fails with the `ValueError` exactly when more than
10 field names are supplied (a zero page size fails too, but with a
`ZeroDivisionError` from the recompute step, not a validation error);
every successful construction stores the arguments, sets
`current_page = 1`, the supplied filters (empty when none are given)
and no selection, and has the recompute step already run. -/
theorem claim_C10_construct (data : List Record) (fields : List String) (ps : Int)
    (fs : Option FilterSet) :
    ((∃ msg, construct data fields ps fs = .error (.valueError msg)) ↔ fields.length > 10) ∧
    (∀ c, construct data fields ps fs = .ok c →
      c.current_page = 1 ∧ c.filters = fs.getD [] ∧ c.selected_item = none ∧
      c.raw_data = data ∧ c.fields = fields ∧ c.page_size = ps ∧
      c.filtered = apply_filters data (fs.getD []) ∧
      c.page_data = (paginate (apply_filters data (fs.getD [])) 1 ps).1 ∧
      c.total_pages = (paginate (apply_filters data (fs.getD [])) 1 ps).2) := by
  by_cases hf : fields.length > 10
  · constructor
    · constructor
      · intro _
        exact hf
      · intro _
        refine ⟨"Maximum 10 fields allowed", ?_⟩
        simp only [construct]
        rw [if_pos hf]
    · intro c hc
      simp only [construct] at hc
      rw [if_pos hf] at hc
      simp at hc
  · by_cases hz : ps = 0
    · constructor
      · constructor
        · rintro ⟨msg, hmsg⟩
          simp only [construct] at hmsg
          rw [if_neg hf, if_pos hz] at hmsg
          simp at hmsg
        · intro h
          exact absurd h hf
      · intro c hc
        simp only [construct] at hc
        rw [if_neg hf, if_pos hz] at hc
        simp at hc
    · constructor
      · constructor
        · rintro ⟨msg, hmsg⟩
          simp only [construct] at hmsg
          rw [if_neg hf, if_neg hz] at hmsg
          simp at hmsg
        · intro h
          exact absurd h hf
      · intro c hc
        simp only [construct] at hc
        rw [if_neg hf, if_neg hz] at hc
        simp only [Except.ok.injEq] at hc
        subst hc
        exact ⟨rfl, rfl, rfl, rfl, rfl, rfl, rfl, rfl, rfl⟩

theorem claim_C10_construct_witness :
    construct exData ["name", "status"] 2 none = .ok exCtl ∧
    (exCtl.current_page = 1 ∧ exCtl.filters = (none : Option FilterSet).getD [] ∧
     exCtl.selected_item = none ∧
     exCtl.raw_data = exData ∧ exCtl.fields = ["name", "status"] ∧ exCtl.page_size = 2 ∧
     exCtl.filtered = apply_filters exData ((none : Option FilterSet).getD []) ∧
     exCtl.page_data = (paginate (apply_filters exData ((none : Option FilterSet).getD [])) 1 2).1 ∧
     exCtl.total_pages = (paginate (apply_filters exData ((none : Option FilterSet).getD [])) 1 2).2) :=
  ⟨rfl, (claim_C10_construct exData ["name", "status"] 2 none).2 exCtl rfl⟩

theorem digitChar_isDigit (d : Nat) : (digitChar d).isDigit = true := by
  rcases d with _|_|_|_|_|_|_|_|_|d <;> rfl

theorem digitVal_digitChar (d : Nat) (h : d < 10) : digitVal (digitChar d) = d := by
  interval_cases d <;> decide

theorem isDigit_not_ws {c : Char} (h : c.isDigit = true) : isJsonWs c = false := by
  have h1 : ¬ c = ' ' := by intro hc; rw [hc] at h; exact absurd h (by decide)
  have h2 : ¬ c = '\t' := by intro hc; rw [hc] at h; exact absurd h (by decide)
  have h3 : ¬ c = '\n' := by intro hc; rw [hc] at h; exact absurd h (by decide)
  have h4 : ¬ c = '\r' := by intro hc; rw [hc] at h; exact absurd h (by decide)
  simp [isJsonWs, h1, h2, h3, h4]

theorem isDigit_ne_of {c : Char} (h : c.isDigit = true) :
    ¬ c = '"' ∧ ¬ c = '{' ∧ ¬ c = '[' ∧ ¬ c = '-' := by
  refine ⟨?_, ?_, ?_, ?_⟩ <;> intro hc <;> rw [hc] at h <;> exact absurd h (by decide)

theorem natReprAux_ne_nil : ∀ (fuel m : Nat) (acc : List Char),
    acc ≠ [] → natReprAux fuel m acc ≠ [] := by
  intro fuel
  induction fuel with
  | zero => intro m acc hacc; exact hacc
  | succ fuel ih =>
    intro m acc hacc
    simp only [natReprAux]
    by_cases h10 : m < 10
    · rw [if_pos h10]
      simp
    · rw [if_neg h10]
      exact ih (m / 10) _ (by simp)

theorem natRepr_ne_nil (m : Nat) : natRepr m ≠ [] := by
  unfold natRepr
  simp only [natReprAux]
  by_cases h10 : m < 10
  · rw [if_pos h10]
    simp
  · rw [if_neg h10]
    exact natReprAux_ne_nil m (m / 10) _ (by simp)

theorem natReprAux_digits : ∀ (fuel m : Nat) (acc : List Char),
    (∀ c ∈ acc, c.isDigit = true) → ∀ c ∈ natReprAux fuel m acc, c.isDigit = true := by
  intro fuel
  induction fuel with
  | zero => intro m acc hacc c hc; exact hacc c hc
  | succ fuel ih =>
    intro m acc hacc c hc
    simp only [natReprAux] at hc
    by_cases h10 : m < 10
    · rw [if_pos h10] at hc
      rcases List.mem_cons.mp hc with rfl | hmem
      · exact digitChar_isDigit m
      · exact hacc c hmem
    · rw [if_neg h10] at hc
      refine ih (m / 10) _ ?_ c hc
      intro c2 hc2
      rcases List.mem_cons.mp hc2 with rfl | hmem
      · exact digitChar_isDigit (m % 10)
      · exact hacc c2 hmem

theorem natRepr_digits (m : Nat) : ∀ c ∈ natRepr m, c.isDigit = true :=
  natReprAux_digits (m + 1) m [] (by intro c hc; simp at hc)

theorem natRepr_cons (m : Nat) : ∃ c0 t, natRepr m = c0 :: t ∧ c0.isDigit = true := by
  rcases h : natRepr m with _ | ⟨c0, t⟩
  · exact absurd h (natRepr_ne_nil m)
  · refine ⟨c0, t, rfl, natRepr_digits m c0 ?_⟩
    rw [h]
    exact List.mem_cons_self c0 t

theorem natRepr_eq_digits (m : Nat) (hm : 0 < m) :
    natRepr m = (Nat.digits 10 m).reverse.map digitChar := by
  have haux : ∀ fuel, ∀ m acc, 0 < m → m ≤ fuel →
      natReprAux fuel m acc = (Nat.digits 10 m).reverse.map digitChar ++ acc := by
    intro fuel
    induction fuel with
    | zero => intro m acc h1 h2; omega
    | succ fuel ih =>
      intro m acc h1 h2
      simp only [natReprAux]
      by_cases h10 : m < 10
      · rw [if_pos h10]
        have hd : Nat.digits 10 m = [m] := by
          rw [Nat.digits_def' (by norm_num : 1 < 10) h1]
          have hmod : m % 10 = m := Nat.mod_eq_of_lt h10
          have hdiv : m / 10 = 0 := Nat.div_eq_of_lt h10
          rw [hmod, hdiv, Nat.digits_zero]
        rw [hd]
        simp
      · rw [if_neg h10]
        have hq : 0 < m / 10 := Nat.div_pos (by omega) (by norm_num)
        have hlt : m / 10 ≤ fuel := by
          have := Nat.div_lt_self h1 (by norm_num : 1 < 10)
          omega
        rw [ih (m / 10) _ hq hlt]
        have hd : Nat.digits 10 m = m % 10 :: Nat.digits 10 (m / 10) :=
          Nat.digits_def' (by norm_num : 1 < 10) h1
        rw [hd]
        simp
  unfold natRepr
  rw [haux (m + 1) m [] hm (by omega)]
  simp

theorem natOfChars_aux (ds : List Char) : ∀ acc : Nat,
    ds.foldl (fun a c => 10 * a + digitVal c) acc
      = Nat.ofDigits 10 ((ds.map digitVal).reverse) + acc * 10 ^ ds.length := by
  induction ds with
  | nil => intro acc; simp
  | cons c ds ih =>
    intro acc
    rw [List.foldl_cons, ih]
    rw [List.map_cons, List.reverse_cons, Nat.ofDigits_append]
    simp only [List.length_reverse, List.length_map, List.length_cons,
      Nat.ofDigits_singleton, pow_succ]
    ring

theorem natOfChars_natRepr (m : Nat) : natOfChars (natRepr m) = m := by
  rcases Nat.eq_zero_or_pos m with rfl | hm
  · rfl
  · rw [natRepr_eq_digits m hm]
    unfold natOfChars
    rw [natOfChars_aux]
    simp only [Nat.zero_mul, Nat.add_zero, List.map_map]
    have hmap : (Nat.digits 10 m).reverse.map (digitVal ∘ digitChar)
        = (Nat.digits 10 m).reverse.map id := by
      apply List.map_congr_left
      intro d hd
      have hlt : d < 10 := Nat.digits_lt_base (by norm_num) (List.mem_reverse.mp hd)
      exact digitVal_digitChar d hlt
    rw [hmap, List.map_id, List.reverse_reverse, Nat.ofDigits_digits]

/-- The character after a serialized numeral: either end of input or a
non-digit, so the digit scan stops exactly at the numeral's end. -/
def headNotDigit : List Char → Prop
  | [] => True
  | c :: _ => c.isDigit = false

theorem takeDigits_append : ∀ (ds rest : List Char),
    (∀ c ∈ ds, c.isDigit = true) → headNotDigit rest →
    takeDigits (ds ++ rest) = (ds, rest) := by
  intro ds
  induction ds with
  | nil =>
    intro rest _ hr
    rcases rest with _ | ⟨c, cs⟩
    · rfl
    · have hcd : c.isDigit = false := hr
      simp only [List.nil_append, takeDigits]
      rw [if_neg (by simp [hcd])]
  | cons d ds ih =>
    intro rest h hr
    have hd : d.isDigit = true := h d (List.mem_cons_self d ds)
    have ih' := ih rest (fun c hc => h c (List.mem_cons_of_mem d hc)) hr
    have hstep : takeDigits (d :: (ds ++ rest))
        = (d :: (takeDigits (ds ++ rest)).1, (takeDigits (ds ++ rest)).2) := by
      simp only [takeDigits]
      rw [if_pos hd]
    rw [List.cons_append, hstep, ih']

theorem isDigit_ne_big_i {c : Char} (h : c.isDigit = true) : ¬ c = 'I' := by
  intro hc
  rw [hc] at h
  exact absurd h (by decide)

theorem natRepr_head_ne_zero (m : Nat) (hm : 0 < m) :
    ∃ c0 t, natRepr m = c0 :: t ∧ c0.isDigit = true ∧ ¬ c0 = '0' := by
  rcases List.eq_nil_or_concat (Nat.digits 10 m) with hnil | ⟨L, b, hLb⟩
  · exact absurd hnil (Nat.digits_ne_nil_iff_ne_zero.mpr (by omega))
  · rw [List.concat_eq_append] at hLb
    have hb0 : b ≠ 0 := by
      have hlast := Nat.getLast_digit_ne_zero 10 (show m ≠ 0 by omega)
      have h2 : (Nat.digits 10 m).getLast
          (Nat.digits_ne_nil_iff_ne_zero.mpr (by omega)) = b := by
        simp [hLb]
      rw [h2] at hlast
      exact hlast
    have hbmem : b ∈ Nat.digits 10 m := by
      rw [hLb]
      exact List.mem_append_right _ (List.mem_singleton.mpr rfl)
    have hblt : b < 10 := Nat.digits_lt_base (by norm_num) hbmem
    refine ⟨digitChar b, L.reverse.map digitChar, ?_, digitChar_isDigit b, ?_⟩
    · rw [natRepr_eq_digits m hm, hLb, List.reverse_append, List.reverse_singleton,
        List.singleton_append, List.map_cons]
    · interval_cases b
      · exact absurd rfl hb0
      all_goals decide

/-- The character after a serialized numeral, as seen by the number
grammar: end of input, or a character that extends neither the digit
string nor a fraction or exponent part. -/
def headNumEnd : List Char → Prop
  | [] => True
  | c :: _ => c.isDigit = false ∧ ¬ c = '.' ∧ ¬ c = 'e' ∧ ¬ c = 'E'

theorem headNumEnd.notDigit : ∀ {l : List Char}, headNumEnd l → headNotDigit l
  | [], _ => trivial
  | _ :: _, h => h.1

theorem parseIntPart_natRepr (m : Nat) (rest : List Char) (hr : headNotDigit rest) :
    parseIntPart (natRepr m ++ rest) = some (natRepr m, rest) := by
  rcases Nat.eq_zero_or_pos m with rfl | hm
  · show parseIntPart ('0' :: rest) = some (['0'], rest)
    simp only [parseIntPart]
    rw [if_pos trivial]
  · obtain ⟨c0, t, hc, hd, h0⟩ := natRepr_head_ne_zero m hm
    rw [hc, List.cons_append]
    simp only [parseIntPart]
    rw [if_neg h0, if_pos hd]
    rw [show (c0 :: (t ++ rest)) = (c0 :: t) ++ rest from rfl, ← hc,
      takeDigits_append _ _ (natRepr_digits m) hr]

theorem parseFrac_end (rest : List Char) (hr : headNumEnd rest) :
    parseFrac rest = some ([], rest) := by
  rcases rest with _ | ⟨c, cs⟩
  · rfl
  · simp only [parseFrac]
    rw [if_neg hr.2.1]

theorem parseExp_end (rest : List Char) (hr : headNumEnd rest) :
    parseExp rest = some ([], rest) := by
  rcases rest with _ | ⟨c, cs⟩
  · rfl
  · simp only [parseExp]
    rw [if_neg (by simp [hr.2.2.1, hr.2.2.2])]

theorem parseNumBody_natRepr (m : Nat) (rest : List Char) (hr : headNumEnd rest) :
    parseNumBody (natRepr m ++ rest) = some ((natRepr m, [], []), rest) := by
  unfold parseNumBody
  rw [parseIntPart_natRepr m rest hr.notDigit]
  dsimp only
  rw [parseFrac_end rest hr]
  dsimp only
  rw [parseExp_end rest hr]

theorem parseNumber_intRepr (n : Int) (rest : List Char) (hr : headNumEnd rest) :
    parseNumber (intRepr n ++ rest) = some (.vInt n, rest) := by
  by_cases hneg : n < 0
  · have h1 : intRepr n = '-' :: natRepr n.natAbs := by
      unfold intRepr
      rw [if_pos hneg]
    obtain ⟨c0, t, hc, hcd⟩ := natRepr_cons n.natAbs
    rw [h1, List.cons_append, hc, List.cons_append]
    simp only [parseNumber]
    rw [if_pos trivial, if_neg (isDigit_ne_big_i hcd)]
    rw [show (c0 :: (t ++ rest)) = (c0 :: t) ++ rest from rfl, ← hc,
      parseNumBody_natRepr n.natAbs rest hr]
    show some (mkNumVal true (natRepr n.natAbs, [], []), rest) = _
    have hmk : mkNumVal true (natRepr n.natAbs, [], []) = .vInt n := by
      show PyVal.vInt (-(natOfChars (natRepr n.natAbs) : Int)) = .vInt n
      rw [natOfChars_natRepr]
      congr 1
      omega
    rw [hmk]
  · have h1 : intRepr n = natRepr n.toNat := by
      unfold intRepr
      rw [if_neg hneg]
    obtain ⟨c0, t, hc, hcd⟩ := natRepr_cons n.toNat
    rw [h1, hc, List.cons_append]
    simp only [parseNumber]
    rw [if_neg (isDigit_ne_of hcd).2.2.2]
    rw [show (c0 :: (t ++ rest)) = (c0 :: t) ++ rest from rfl, ← hc,
      parseNumBody_natRepr n.toNat rest hr]
    show some (mkNumVal false (natRepr n.toNat, [], []), rest) = _
    have hmk : mkNumVal false (natRepr n.toNat, [], []) = .vInt n := by
      show PyVal.vInt ((natOfChars (natRepr n.toNat) : Int)) = .vInt n
      rw [natOfChars_natRepr]
      congr 1
      omega
    rw [hmk]

theorem skipWs_cons_not_ws (c : Char) (l : List Char) (h : isJsonWs c = false) :
    skipWs (c :: l) = c :: l := by
  simp [skipWs, h]

theorem skipWs_space (l : List Char) : skipWs (' ' :: l) = skipWs l := by
  simp [skipWs, isJsonWs]

set_option maxHeartbeats 1600000 in
theorem parseValue_intRepr (fuel : Nat) (n : Int) (rest : List Char)
    (hr : headNumEnd rest) :
    parseValue (fuel + 1) (' ' :: (intRepr n ++ rest)) = some (.vInt n, rest) := by
  have hint := parseNumber_intRepr n rest hr
  obtain ⟨c0, t, hct, hd⟩ : ∃ c0 t, intRepr n = c0 :: t ∧ (c0 = '-' ∨ c0.isDigit = true) := by
    unfold intRepr
    by_cases hneg : n < 0
    · rw [if_pos hneg]
      exact ⟨'-', _, rfl, Or.inl rfl⟩
    · rw [if_neg hneg]
      obtain ⟨c0, t, hc, hcd⟩ := natRepr_cons n.toNat
      exact ⟨c0, t, hc, Or.inr hcd⟩
  have hnws : isJsonWs c0 = false := by
    rcases hd with rfl | hdig
    · rfl
    · exact isDigit_not_ws hdig
  have hnq : ¬ c0 = '"' := by
    rcases hd with rfl | hdig
    · decide
    · exact (isDigit_ne_of hdig).1
  have hnb : ¬ c0 = '{' := by
    rcases hd with rfl | hdig
    · decide
    · exact (isDigit_ne_of hdig).2.1
  have hnk : ¬ c0 = '[' := by
    rcases hd with rfl | hdig
    · decide
    · exact (isDigit_ne_of hdig).2.2.1
  have hcond : (decide (c0 = '-') || c0.isDigit) = true := by
    rcases hd with rfl | hdig
    · simp
    · simp [hdig]
  rw [hct, List.cons_append]
  simp only [parseValue]
  rw [skipWs_space, skipWs_cons_not_ws c0 _ hnws]
  dsimp only
  rw [if_neg hnq, if_neg hnb, if_neg hnk, if_pos hcond]
  rw [show (c0 :: (t ++ rest)) = (c0 :: t) ++ rest from rfl, ← hct, hint]

/-- The detail token of C9 with integer-typed index and page. -/
def detailTokI (i p : Int) : Token :=
  [("action", .s "detail"), ("index", .i i), ("page", .i p)]

theorem parse_page_member (k : Nat) (p : Int) :
    parseMembers (k + 2)
      (' ' :: '"' :: 'p' :: 'a' :: 'g' :: 'e' :: '"' :: ':' :: ' ' :: (intRepr p ++ ['}']))
      = some ([("page", PyVal.vInt p)], []) := by
  show (match parseValue (k + 1) (' ' :: (intRepr p ++ ['}'])) with
    | none => none
    | some (v, rest4) =>
      match skipWs rest4 with
      | ',' :: rest5 => (parseMembers (k + 1) rest5).map (fun r => (("page", v) :: r.1, r.2))
      | '}' :: rest5 => some ([("page", v)], rest5)
      | _ => none)
    = some ([("page", PyVal.vInt p)], [])
  rw [parseValue_intRepr k p ['}'] ⟨rfl, by decide, by decide, by decide⟩]
  rfl

theorem parse_index_members (k : Nat) (i p : Int) :
    parseMembers (k + 3)
      (' ' :: '"' :: 'i' :: 'n' :: 'd' :: 'e' :: 'x' :: '"' :: ':' :: ' ' ::
        (intRepr i ++ (',' :: ' ' :: '"' :: 'p' :: 'a' :: 'g' :: 'e' :: '"' :: ':' :: ' ' ::
          (intRepr p ++ ['}']))))
      = some ([("index", PyVal.vInt i), ("page", PyVal.vInt p)], []) := by
  show (match parseValue (k + 1 + 1)
      (' ' :: (intRepr i ++ (',' :: ' ' :: '"' :: 'p' :: 'a' :: 'g' :: 'e' :: '"' :: ':' :: ' ' ::
        (intRepr p ++ ['}'])))) with
    | none => none
    | some (v, rest4) =>
      match skipWs rest4 with
      | ',' :: rest5 => (parseMembers (k + 2) rest5).map (fun r => (("index", v) :: r.1, r.2))
      | '}' :: rest5 => some ([("index", v)], rest5)
      | _ => none)
    = some ([("index", PyVal.vInt i), ("page", PyVal.vInt p)], [])
  rw [parseValue_intRepr (k + 1) i
    (',' :: ' ' :: '"' :: 'p' :: 'a' :: 'g' :: 'e' :: '"' :: ':' :: ' ' ::
      (intRepr p ++ ['}'])) ⟨rfl, by decide, by decide, by decide⟩]
  show (parseMembers (k + 2)
      (' ' :: '"' :: 'p' :: 'a' :: 'g' :: 'e' :: '"' :: ':' :: ' ' :: (intRepr p ++ ['}']))).map
      (fun r => (("index", PyVal.vInt i) :: r.1, r.2))
    = some ([("index", PyVal.vInt i), ("page", PyVal.vInt p)], [])
  rw [parse_page_member k p]
  rfl

theorem parse_detail_members (k : Nat) (i p : Int) :
    parseMembers (k + 4)
      ('"' :: 'a' :: 'c' :: 't' :: 'i' :: 'o' :: 'n' :: '"' :: ':' :: ' ' ::
        '"' :: 'd' :: 'e' :: 't' :: 'a' :: 'i' :: 'l' :: '"' :: ',' ::
        ' ' :: '"' :: 'i' :: 'n' :: 'd' :: 'e' :: 'x' :: '"' :: ':' :: ' ' ::
        (intRepr i ++ (',' :: ' ' :: '"' :: 'p' :: 'a' :: 'g' :: 'e' :: '"' :: ':' :: ' ' ::
          (intRepr p ++ ['}']))))
      = some ([("action", PyVal.vStr "detail"), ("index", PyVal.vInt i),
               ("page", PyVal.vInt p)], []) := by
  show (parseMembers (k + 3)
      (' ' :: '"' :: 'i' :: 'n' :: 'd' :: 'e' :: 'x' :: '"' :: ':' :: ' ' ::
        (intRepr i ++ (',' :: ' ' :: '"' :: 'p' :: 'a' :: 'g' :: 'e' :: '"' :: ':' :: ' ' ::
          (intRepr p ++ ['}']))))).map
      (fun r => (("action", PyVal.vStr "detail") :: r.1, r.2))
    = some ([("action", PyVal.vStr "detail"), ("index", PyVal.vInt i),
             ("page", PyVal.vInt p)], [])
  rw [parse_index_members k i p]
  rfl

theorem parse_detail_top (k : Nat) (i p : Int) :
    parseValue (k + 5)
      ('{' :: '"' :: 'a' :: 'c' :: 't' :: 'i' :: 'o' :: 'n' :: '"' :: ':' :: ' ' ::
        '"' :: 'd' :: 'e' :: 't' :: 'a' :: 'i' :: 'l' :: '"' :: ',' ::
        ' ' :: '"' :: 'i' :: 'n' :: 'd' :: 'e' :: 'x' :: '"' :: ':' :: ' ' ::
        (intRepr i ++ (',' :: ' ' :: '"' :: 'p' :: 'a' :: 'g' :: 'e' :: '"' :: ':' :: ' ' ::
          (intRepr p ++ ['}']))))
      = some (.vDict [("action", PyVal.vStr "detail"), ("index", PyVal.vInt i),
                      ("page", PyVal.vInt p)], []) := by
  show (parseMembers (k + 4)
      ('"' :: 'a' :: 'c' :: 't' :: 'i' :: 'o' :: 'n' :: '"' :: ':' :: ' ' ::
        '"' :: 'd' :: 'e' :: 't' :: 'a' :: 'i' :: 'l' :: '"' :: ',' ::
        ' ' :: '"' :: 'i' :: 'n' :: 'd' :: 'e' :: 'x' :: '"' :: ':' :: ' ' ::
        (intRepr i ++ (',' :: ' ' :: '"' :: 'p' :: 'a' :: 'g' :: 'e' :: '"' :: ':' :: ' ' ::
          (intRepr p ++ ['}']))))).map
      (fun r => (PyVal.vDict (pyDictOf r.1), r.2))
    = some (.vDict [("action", PyVal.vStr "detail"), ("index", PyVal.vInt i),
                    ("page", PyVal.vInt p)], [])
  rw [parse_detail_members k i p]
  rfl

theorem json_dumps_chars_detail (i p : Int) :
    json_dumps_chars (detailTokI i p)
      = '{' :: '"' :: 'a' :: 'c' :: 't' :: 'i' :: 'o' :: 'n' :: '"' :: ':' :: ' ' ::
          '"' :: 'd' :: 'e' :: 't' :: 'a' :: 'i' :: 'l' :: '"' :: ',' ::
          ' ' :: '"' :: 'i' :: 'n' :: 'd' :: 'e' :: 'x' :: '"' :: ':' :: ' ' ::
          (intRepr i ++ (',' :: ' ' :: '"' :: 'p' :: 'a' :: 'g' :: 'e' :: '"' :: ':' :: ' ' ::
            (intRepr p ++ ['}']))) := by
  show '{' :: '"' :: 'a' :: 'c' :: 't' :: 'i' :: 'o' :: 'n' :: '"' :: ':' :: ' ' ::
      '"' :: 'd' :: 'e' :: 't' :: 'a' :: 'i' :: 'l' :: '"' :: ',' ::
      ' ' :: '"' :: 'i' :: 'n' :: 'd' :: 'e' :: 'x' :: '"' :: ':' :: ' ' ::
      ((intRepr i ++ (',' :: ' ' :: '"' :: 'p' :: 'a' :: 'g' :: 'e' :: '"' :: ':' :: ' ' ::
        intRepr p)) ++ ['}'])
    = _
  rw [List.append_assoc]
  rfl

/-- C9: with the default serializer/deserializer pair installed at
construction (`json.dumps` / `json.loads`), every valid callback token —
`{action: "next"}`, `{action: "prev"}`, and
`{action: "detail", index: i, page: p}` for arbitrary integers `i`, `p`
— round-trips: `deserialize(serialize(token)) == token`. -/
theorem claim_C9_roundtrip (i p : Int) :
    json_loads (json_dumps [("action", TokVal.s "next")])
      = some (.vDict [("action", PyVal.vStr "next")]) ∧
    json_loads (json_dumps [("action", TokVal.s "prev")])
      = some (.vDict [("action", PyVal.vStr "prev")]) ∧
    json_loads (json_dumps (detailTokI i p))
      = some (.vDict [("action", PyVal.vStr "detail"), ("index", PyVal.vInt i),
                      ("page", PyVal.vInt p)]) := by
  refine ⟨rfl, rfl, ?_⟩
  unfold json_loads
  have hd : (json_dumps (detailTokI i p)).data = json_dumps_chars (detailTokI i p) := rfl
  rw [hd, json_dumps_chars_detail i p]
  have hlen : 4 ≤ ('{' :: '"' :: 'a' :: 'c' :: 't' :: 'i' :: 'o' :: 'n' :: '"' :: ':' :: ' ' ::
      '"' :: 'd' :: 'e' :: 't' :: 'a' :: 'i' :: 'l' :: '"' :: ',' ::
      ' ' :: '"' :: 'i' :: 'n' :: 'd' :: 'e' :: 'x' :: '"' :: ':' :: ' ' ::
      (intRepr i ++ (',' :: ' ' :: '"' :: 'p' :: 'a' :: 'g' :: 'e' :: '"' :: ':' :: ' ' ::
        (intRepr p ++ ['}'])))).length := by
    simp
  have hfuel : ('{' :: '"' :: 'a' :: 'c' :: 't' :: 'i' :: 'o' :: 'n' :: '"' :: ':' :: ' ' ::
      '"' :: 'd' :: 'e' :: 't' :: 'a' :: 'i' :: 'l' :: '"' :: ',' ::
      ' ' :: '"' :: 'i' :: 'n' :: 'd' :: 'e' :: 'x' :: '"' :: ':' :: ' ' ::
      (intRepr i ++ (',' :: ' ' :: '"' :: 'p' :: 'a' :: 'g' :: 'e' :: '"' :: ':' :: ' ' ::
        (intRepr p ++ ['}'])))).length + 1
      = (('{' :: '"' :: 'a' :: 'c' :: 't' :: 'i' :: 'o' :: 'n' :: '"' :: ':' :: ' ' ::
      '"' :: 'd' :: 'e' :: 't' :: 'a' :: 'i' :: 'l' :: '"' :: ',' ::
      ' ' :: '"' :: 'i' :: 'n' :: 'd' :: 'e' :: 'x' :: '"' :: ':' :: ' ' ::
      (intRepr i ++ (',' :: ' ' :: '"' :: 'p' :: 'a' :: 'g' :: 'e' :: '"' :: ':' :: ' ' ::
        (intRepr p ++ ['}'])))).length - 4) + 5 := by
    omega
  rw [hfuel, parse_detail_top]
  rfl

theorem claim_C3_paginate_witness :
    (0 : Int) ≤ 2 ∧ (0 : Int) < 2 ∧
    ((paginate exData 2 2).2 = ((max 1 (ceilDiv exData.length (2 : Int).toNat) : Nat) : Int) ∧
     (paginate exData 2 2).1
       = (exData.take ((((2 : Int) - 1) * 2 + 2).toNat)).drop ((((2 : Int) - 1) * 2).toNat) ∧
     (((2 : Int) = 0 ∨ (paginate exData 2 2).2 < 2) → (paginate exData 2 2).1 = [])) :=
  ⟨by decide, by decide, claim_C3_paginate exData 2 2 (by decide) (by decide)⟩

theorem claim_C5_partition_witness :
    (0 : Int) < 2 ∧
    ((((List.range (paginate exData 1 2).2.toNat).map
        (fun (k : Nat) => (paginate exData ((k : Int) + 1) 2).1)).flatten = exData) ∧
     (((List.range (paginate exData 1 2).2.toNat).map
        (fun (k : Nat) => (paginate exData ((k : Int) + 1) 2).1.length)).sum = exData.length) ∧
     (∀ k : Nat, (paginate exData ((k : Int) + 1) 2).1
        = (exData.drop (k * (2 : Int).toNat)).take (2 : Int).toNat)) :=
  ⟨by decide, claim_C5_partition exData 2 (by decide)⟩

theorem str_append_eq_empty {x y : String} (h : x ++ y = "") : x = "" := by
  cases x with
  | mk a =>
    cases y with
    | mk b =>
      have hd : a ++ b = [] := congrArg String.data h
      have ha : a = [] := (List.append_eq_nil.mp hd).1
      rw [ha]

theorem str_mk_ne_empty {l : List Char} (h : l ≠ []) : (⟨l⟩ : String) ≠ "" :=
  fun hc => h (congrArg String.data hc)

theorem natStr_ne_empty (n : Nat) : natStr n ≠ "" :=
  str_mk_ne_empty (natRepr_ne_nil n)

theorem strJoin_cons_ne_empty (sep x : String) (xs : List String) (hx : x ≠ "") :
    strJoin sep (x :: xs) ≠ "" := by
  rcases xs with _ | ⟨y, rest⟩
  · exact hx
  · intro hc
    exact hx (str_append_eq_empty (str_append_eq_empty hc))

/-- The spec's rendered line for the record at 1-based position `i`: the
index prefix, then each configured field's stringified value (missing
fields as the empty string), joined by the em-dash separator (spec
section 4.2, render). -/
def specLine (fields : List String) (i : Nat) (r : Record) : String :=
  strJoin " — " (natStr i :: fields.map (fun f => getField r f))

/-- The spec's message text: one line per record of the current page
slice, and the fixed sentinel when the slice is empty. -/
def specText (c : Controller) : String :=
  if c.page_data.isEmpty then "No data available."
  else strJoin "\n" ((List.enumFrom 1 c.page_data).map fun pr => specLine c.fields pr.1 pr.2)

/-- The spec's numbered detail-button row for the visible record at
zero-based position `k`: one button labelled `k + 1` carrying the token
`{action: "detail", index: k, page: current_page}`. -/
def specItemRow (c : Controller) (k : Nat) : List Button :=
  [⟨natStr (k + 1), json_dumps (detailTok k c.current_page)⟩]

/-- The spec's navigation row: a prev button iff not on the first page,
a next button iff not on the last. -/
def specNavRow (c : Controller) : List Button :=
  (if 1 < c.current_page then [⟨"«", json_dumps [("action", TokVal.s "prev")]⟩] else []) ++
  (if c.current_page < c.total_pages then [⟨"»", json_dumps [("action", TokVal.s "next")]⟩] else [])

/-- The spec's button grid: one row per visible record, then the
navigation row, omitted entirely when neither nav button applies. -/
def specGrid (c : Controller) : List (List Button) :=
  (List.range c.page_data.length).map (specItemRow c) ++
    (if 1 < c.current_page ∨ c.current_page < c.total_pages then [specNavRow c] else [])

theorem buildLines_eq (fields : List String) : ∀ (l : List Record) (idx : Nat),
    buildLines idx fields l
      = (List.enumFrom idx l).map (fun pr => specLine fields pr.1 pr.2) := by
  intro l
  induction l with
  | nil => intro idx; rfl
  | cons r rest ih =>
    intro idx
    rw [buildLines, List.enumFrom_cons, List.map_cons, ih (idx + 1)]
    rfl

theorem buildLines_head_ne_empty (fields : List String) (idx : Nat) (r : Record)
    (rest : List Record) :
    strJoin "\n" (buildLines idx fields (r :: rest)) ≠ "" := by
  rw [buildLines]
  apply strJoin_cons_ne_empty
  apply strJoin_cons_ne_empty
  exact natStr_ne_empty idx

/-- C8: `build_message` renders exactly the text and abstract button
grid the spec describes: one line per visible record with the 1-based
index prefix and em-dash-joined field values (the `"No data
available."` sentinel for an empty page), one numbered detail-button
row per visible record carrying
`{action: "detail", index, page}`, and a navigation row with prev/next
buttons exactly when not on the first/last page, omitted when neither
applies. -/
theorem claim_C8_render (c : Controller) :
    build_message c = (specText c, specGrid c) := by
  have htext : (build_message c).1 = specText c := by
    show (if strJoin "\n" (buildLines 1 c.fields c.page_data) = "" then "No data available."
          else strJoin "\n" (buildLines 1 c.fields c.page_data)) = specText c
    rcases hpd : c.page_data with _ | ⟨r, rest⟩
    · rw [specText, hpd]
      rfl
    · rw [if_neg (buildLines_head_ne_empty c.fields 1 r rest), specText, hpd]
      rw [if_neg (by simp)]
      rw [buildLines_eq]
  have hgrid : (build_message c).2 = specGrid c := by
    show (let nav :=
          (if c.current_page > 1 then
            [Button.mk "«" (json_dumps [("action", TokVal.s "prev")])] else []) ++
          (if c.current_page < c.total_pages then
            [Button.mk "»" (json_dumps [("action", TokVal.s "next")])] else [])
        if nav.isEmpty
        then (List.range c.page_data.length).map fun i =>
          [Button.mk (natStr (i + 1)) (json_dumps (detailTok i c.current_page))]
        else ((List.range c.page_data.length).map fun i =>
          [Button.mk (natStr (i + 1)) (json_dumps (detailTok i c.current_page))]) ++ [nav])
      = specGrid c
    by_cases h1 : 1 < c.current_page <;> by_cases h2 : c.current_page < c.total_pages <;>
      simp [specGrid, specNavRow, specItemRow, h1, h2]
  calc build_message c = ((build_message c).1, (build_message c).2) := rfl
    _ = (specText c, specGrid c) := by rw [htext, hgrid]
